import Mathlib

/-!
# GFWList update protocol of v2rayA (`service/core/v2ray/asset/gfwlist/gfwlist.go`)

A shallow embedding of the package `gfwlist`: the process-wide version cache `g`,
the staleness check `IsUpdate`, the checksum verifier `checkSha256`, and the
download-verify-swap sequence `UpdateLocalGFWList` with its deferred cleanup.

Conventions of the embedding

* A byte is a natural number below 256; a Go `[]byte`, and a Go `string` that is compared
  byte-wise (digests), is a list of bytes.
* `time.Time` is an instant in nanoseconds counted from the zero time; `IsZero`, `Before` and
  `UnixNano` are used.
* The file system is a map from the file name inside the asset directory (the last element
  of `filepath.Join(assetDir, name)`) to the file stored there, if any.
* Every call that talks to the operating system or to the network takes the outcome the
  environment gives to it as an argument (`none` = the call is not disturbed), and returns the
  new file system together with its Go results.
-/

namespace gfwlist

abbrev Bytes := List Nat

/-! ## Values -/

/-- The instant of a `time.Time`, in nanoseconds counted from the zero time (January 1,
year 1, 00:00:00 UTC). -/
structure Time where
  instant : Int
deriving DecidableEq

/-- Go: `func (t Time) IsZero() bool`. -/
def Time.IsZero (t : Time) : Bool := decide (t.instant = 0)

/-- Go: `func (t Time) Before(u Time) bool`, the strict order on instants. -/
def Time.Before (t u : Time) : Bool := decide (t.instant < u.instant)

/-- Go: `unixToInternal` of package `time`, the seconds from the zero time to the Unix epoch
(January 1, 1970 UTC). -/
def time.unixToInternal : Int := 62135596800

/-- Go: `func (t Time) UnixNano() int64`: the nanoseconds since the Unix epoch, computed in
int64 and so taken modulo `2^64` into `[-2^63, 2^63)`; instants before 1677-09-21 or after
2262-04-11 wrap around. -/
def Time.UnixNano (t : Time) : Int :=
  (t.instant - time.unixToInternal * 1000000000 + 9223372036854775808) % 18446744073709551616
    - 9223372036854775808

/-- Whether the Unix nanoseconds of the instant are in `[-2^63, 2^63)`, that is, whether the
instant is between 1677-09-21T00:12:43.145224192Z and 2262-04-11T23:47:16.854775807Z. -/
def Time.fitsUnixNano (t : Time) : Bool :=
  decide (-9223372036854775808 ≤ t.instant - time.unixToInternal * 1000000000 ∧
    t.instant - time.unixToInternal * 1000000000 < 9223372036854775808)

/-- Go: `time.Unix(0, nsec)`, the time of the given nanoseconds since the Unix epoch. -/
def time.Unix (nsec : Int) : Time := ⟨nsec + time.unixToInternal * 1000000000⟩

/-- Error values. `newError s` is `newError("s")`, `newErrorOf e` is `newError(e)` for an
error value `e`, `Base e inner` is `e.Base(inner)`, and `os s` is an error produced by the
operating system, the network or a library. -/
inductive Error where
  | newError (msg : String)
  | newErrorOf (value : Error)
  | Base (err inner : Error)
  | os (msg : String)
deriving DecidableEq

/-- Go: `type GFWList struct { UpdateTime time.Time; Tag string }`. -/
structure GFWList where
  UpdateTime : Time
  Tag : String
deriving DecidableEq

/-- An HTTP response; `io.ReadAll(resp.Body)` yields the bytes read and the read error. -/
structure Response where
  data : Bytes
  readErr : Option Error

/-- Go: `io.ReadAll(resp.Body)`. -/
def io.ReadAll (resp : Response) : Bytes × Option Error := (resp.data, resp.readErr)

/-- A file: its content and its modification time. -/
structure File where
  content : Bytes
  modTime : Time
deriving DecidableEq

/-- The asset directory: file name to file. -/
abbrev FS := String → Option File

/-- The file system with the entry of `name` replaced. -/
def FS.set (fs : FS) (name : String) (v : Option File) : FS :=
  fun q => if q = name then v else fs q

/-! ## Library functions used by the package -/

/-- The functions of third-party and locale-dependent libraries, taken as given:
`gjson.GetBytes(b, path).Str`, `gjson.GetBytes(b, path).Time()` and
`t.Local().Format("2006-01-02")`. -/
structure Lib where
  gjsonStr : Bytes → String → String
  gjsonTime : Bytes → String → Time
  Format : Time → String

/-- The replies of `httpClient.HttpGetUsingSpecificClient`: the reply to the `k`-th request of a
call (counted from 0) for the given URL. -/
abbrev Client := Nat → String → Except Error Response

/-! ### crypto/sha256 -/

def libSha256.K : List Nat :=
  [0x428a2f98, 0x71374491, 0xb5c0fbcf, 0xe9b5dba5, 0x3956c25b, 0x59f111f1, 0x923f82a4, 0xab1c5ed5,
   0xd807aa98, 0x12835b01, 0x243185be, 0x550c7dc3, 0x72be5d74, 0x80deb1fe, 0x9bdc06a7, 0xc19bf174,
   0xe49b69c1, 0xefbe4786, 0x0fc19dc6, 0x240ca1cc, 0x2de92c6f, 0x4a7484aa, 0x5cb0a9dc, 0x76f988da,
   0x983e5152, 0xa831c66d, 0xb00327c8, 0xbf597fc7, 0xc6e00bf3, 0xd5a79147, 0x06ca6351, 0x14292967,
   0x27b70a85, 0x2e1b2138, 0x4d2c6dfc, 0x53380d13, 0x650a7354, 0x766a0abb, 0x81c2c92e, 0x92722c85,
   0xa2bfe8a1, 0xa81a664b, 0xc24b8b70, 0xc76c51a3, 0xd192e819, 0xd6990624, 0xf40e3585, 0x106aa070,
   0x19a4c116, 0x1e376c08, 0x2748774c, 0x34b0bcb5, 0x391c0cb3, 0x4ed8aa4a, 0x5b9cca4f, 0x682e6ff3,
   0x748f82ee, 0x78a5636f, 0x84c87814, 0x8cc70208, 0x90befffa, 0xa4506ceb, 0xbef9a3f7, 0xc67178f2]

def libSha256.init : List Nat :=
  [0x6a09e667, 0xbb67ae85, 0x3c6ef372, 0xa54ff53a, 0x510e527f, 0x9b05688c, 0x1f83d9ab, 0x5be0cd19]

/-- Rotation to the right of a 32-bit word. -/
def libSha256.rotr (x n : Nat) : Nat := ((x >>> n) ||| (x <<< (32 - n))) % 4294967296

/-- The `k` low bytes of `n`, most significant first. -/
def libSha256.be (n : Nat) : Nat → Bytes
  | 0 => []
  | k + 1 => (n >>> (8 * k)) % 256 :: libSha256.be n k

/-- The message followed by the bit 1, zero bytes up to 56 modulo 64, and the bit length. -/
def libSha256.pad (m : Bytes) : Bytes :=
  m ++ 128 :: (List.replicate ((119 - m.length % 64) % 64) 0 ++ libSha256.be (8 * m.length) 8)

/-- Big-endian 32-bit words of a byte string. -/
def libSha256.words : Bytes → List Nat
  | a :: b :: c :: d :: rest =>
    ((((a % 256) * 256 + b % 256) * 256 + c % 256) * 256 + d % 256) :: libSha256.words rest
  | _ => []

/-- The message schedule, newest word first: `v` holds `w[t-1], w[t-2], ...`. -/
def libSha256.schedule : Nat → List Nat → List Nat
  | 0, v => v
  | n + 1, v =>
    let w2 := v.getD 1 0
    let w7 := v.getD 6 0
    let w15 := v.getD 14 0
    let w16 := v.getD 15 0
    let s0 := libSha256.rotr w15 7 ^^^ libSha256.rotr w15 18 ^^^ (w15 >>> 3)
    let s1 := libSha256.rotr w2 17 ^^^ libSha256.rotr w2 19 ^^^ (w2 >>> 10)
    libSha256.schedule n (((s1 + w7 + s0 + w16) % 4294967296) :: v)

/-- One round of the compression function on the working variables `a..h`. -/
def libSha256.round (s : List Nat) (kw : Nat × Nat) : List Nat :=
  match s with
  | [a, b, c, d, e, f, g, h] =>
    let S1 := libSha256.rotr e 6 ^^^ libSha256.rotr e 11 ^^^ libSha256.rotr e 25
    let ch := (e &&& f) ^^^ ((4294967295 - e) &&& g)
    let t1 := (h + S1 + ch + kw.1 + kw.2) % 4294967296
    let S0 := libSha256.rotr a 2 ^^^ libSha256.rotr a 13 ^^^ libSha256.rotr a 22
    let maj := (a &&& b) ^^^ (a &&& c) ^^^ (b &&& c)
    let t2 := (S0 + maj) % 4294967296
    [(t1 + t2) % 4294967296, a, b, c, (d + t1) % 4294967296, e, f, g]
  | _ => s

/-- The compression of one 16-word block into the chaining value `h`. -/
def libSha256.block (h : List Nat) (w16 : List Nat) : List Nat :=
  let w := (libSha256.schedule 48 w16.reverse).reverse
  List.zipWith (fun x y => (x + y) % 4294967296) h ((libSha256.K.zip w).foldl libSha256.round h)

def libSha256.blocks : Nat → List Nat → List Nat → List Nat
  | 0, h, _ => h
  | n + 1, h, ws => libSha256.blocks n (libSha256.block h (ws.take 16)) (ws.drop 16)

/-- Go: `sha256.Sum256(data)`, the SHA-256 digest (FIPS 180-4) as 32 bytes. -/
def libSha256.Sum256 (data : Bytes) : Bytes :=
  let ws := libSha256.words (libSha256.pad data)
  (libSha256.blocks (ws.length / 16) libSha256.init ws).flatMap (fun x => libSha256.be x 4)

/-! ### encoding/hex -/

/-- Go: `const hextable = "0123456789abcdef"`, as bytes. -/
def hex.hextable : Bytes :=
  [48, 49, 50, 51, 52, 53, 54, 55, 56, 57, 97, 98, 99, 100, 101, 102]

/-- Go: `hex.EncodeToString(src)`: for each byte `v` the digits `hextable[v>>4]` and
`hextable[v&0x0f]`. -/
def hex.EncodeToString (src : Bytes) : Bytes :=
  src.flatMap (fun v => [hex.hextable.getD ((v % 256) / 16) 0, hex.hextable.getD (v % 16) 0])

/-! ### bytes.Fields -/

/-- Go: the table `asciiSpace` of package `bytes`: tab, line feed, vertical tab, form feed,
carriage return and the space. -/
def bytes.asciiSpace (b : Nat) : Bool :=
  b == 9 || b == 10 || b == 11 || b == 12 || b == 13 || b == 32

/-- The three-byte UTF-8 encodings of the white space of `unicode.IsSpace` above Latin-1:
U+1680, U+2000..U+200A, U+2028, U+2029, U+202F, U+205F and U+3000. -/
def bytes.isSpace3 (b0 b1 b2 : Nat) : Bool :=
  (b0 == 0xE1 && b1 == 0x9A && b2 == 0x80) ||
  (b0 == 0xE2 && b1 == 0x80 &&
    ((0x80 ≤ b2 && b2 ≤ 0x8A) || b2 == 0xA8 || b2 == 0xA9 || b2 == 0xAF)) ||
  (b0 == 0xE2 && b1 == 0x81 && b2 == 0x9F) ||
  (b0 == 0xE3 && b1 == 0x80 && b2 == 0x80)

/-- The width in bytes of the white-space rune (`unicode.IsSpace`) encoded at the head of `s`,
and 0 when `s` does not start with one. The two-byte ones are U+0085 and U+00A0. A white-space
encoding starts with a byte that is never a continuation byte, so it is found at a position
exactly when the rune decoder of `bytes.FieldsFunc` reaches that position and decodes it. -/
def bytes.spaceWidth : Bytes → Nat
  | [] => 0
  | b0 :: rest =>
    if bytes.asciiSpace b0 then 1
    else match rest with
      | [] => 0
      | b1 :: rest2 =>
        if b0 == 0xC2 && (b1 == 0x85 || b1 == 0xA0) then 2
        else match rest2 with
          | [] => 0
          | b2 :: _ => if bytes.isSpace3 b0 b1 b2 then 3 else 0

/-- The field collected so far, if it is not empty. -/
def bytes.flush (cur : Bytes) : List Bytes := if cur.isEmpty then [] else [cur]

/-- The scan of `bytes.Fields`: `skip` bytes of a white-space rune are still to be passed over,
`cur` is the field being collected. -/
def bytes.fieldsFrom : Bytes → Nat → Bytes → List Bytes
  | [], _, cur => bytes.flush cur
  | _ :: rest, skip + 1, cur => bytes.fieldsFrom rest skip cur
  | b :: rest, 0, cur =>
    match bytes.spaceWidth (b :: rest) with
    | 0 => bytes.fieldsFrom rest 0 (cur ++ [b])
    | w + 1 => bytes.flush cur ++ bytes.fieldsFrom rest w []

/-- Go: `bytes.Fields(s)`: the maximal runs of bytes of `s` between white-space runes. -/
def bytes.Fields (s : Bytes) : List Bytes := bytes.fieldsFrom s 0 []

/-! ## Operating system calls

`fault` is the failure the environment injects into the call, `none` when it lets the call run.
A call on a file that is not there fails by itself. -/

def os.ErrNotExist : Error := Error.os "file does not exist"

/-- Go: `os.Stat(name)`; it succeeds exactly on a file that is there. -/
def os.Stat (name : String) (fs : FS) : Except Error File :=
  match fs name with
  | some f => .ok f
  | none => .error os.ErrNotExist

/-- Go: `os.Rename(oldpath, newpath)`; the file moves with its modification time and replaces
what was at `newpath`. -/
def os.Rename (fault : Option Error) (oldpath newpath : String) (fs : FS) : Option Error × FS :=
  match fault, fs oldpath with
  | some e, _ => (some e, fs)
  | none, none => (some os.ErrNotExist, fs)
  | none, some f => (none, (fs.set oldpath none).set newpath (some f))

/-- Go: `os.Remove(name)`. -/
def os.Remove (fault : Option Error) (name : String) (fs : FS) : Option Error × FS :=
  match fault, fs name with
  | some e, _ => (some e, fs)
  | none, none => (some os.ErrNotExist, fs)
  | none, some _ => (none, fs.set name none)

/-- Go: `os.ReadFile(name)`. -/
def os.ReadFile (fault : Option Error) (name : String) (fs : FS) : Except Error Bytes × FS :=
  match fault, fs name with
  | some e, _ => (.error e, fs)
  | none, none => (.error os.ErrNotExist, fs)
  | none, some f => (.ok f.content, fs)

/-- Go: `os.WriteFile(name, data, perm)`. The outcome is the wall-clock time stamped on the
written file, or the error together with what the failed call leaves at `name`. -/
def os.WriteFile (outcome : Except (Error × Option File) Time) (name : String) (data : Bytes)
    (fs : FS) : Option Error × FS :=
  match outcome with
  | .ok now => (none, fs.set name (some ⟨data, now⟩))
  | .error (e, left) => (some e, fs.set name left)

/-- Go: the closure `set` of `os.Chtimes`: a zero time leaves the time of the file as it is
(`UTIME_OMIT`), any other time is handed over as `t.UnixNano()`; `recorded` is what the file
system stores when it is asked for a time (its granularity and range). -/
def os.Chtimes.set (recorded : Time → Time) (t old : Time) : Time :=
  if t.IsZero then old else recorded (time.Unix t.UnixNano)

/-- Go: `os.Chtimes(name, atime, mtime)`. -/
def os.Chtimes (fault : Option Error) (recorded : Time → Time) (name : String) (mtime : Time)
    (fs : FS) : Option Error × FS :=
  match fault, fs name with
  | some e, _ => (some e, fs)
  | none, none => (some os.ErrNotExist, fs)
  | none, some f => (none, fs.set name (some ⟨f.content, os.Chtimes.set recorded mtime f.modTime⟩))

/-! ## Functions of this repository that live in other packages -/

/-- Modelled from the spec: `files.GetFileModTime` (package `common/files`, outside this
source file) reads the modification time of the file ("Read back the modification time"). -/
def files.GetFileModTime (fault : Option Error) (name : String) (fs : FS) : Except Error Time :=
  match fault, fs name with
  | some e, _ => .error e
  | none, none => .error os.ErrNotExist
  | none, some f => .ok f.modTime

/-- Modelled from the spec: `gopeed.Down` (package `extra/gopeed`, outside this source file)
downloads "the new artifact content directly to the target path (full-content replace)". The
outcome is the file written (content and wall-clock time), or the error together with the
"partial artifact file" the failed download "may have left behind" at the path. -/
def gopeed.Down (outcome : Except (Error × Option File) File) (path : String) (fs : FS) :
    Option Error × FS :=
  match outcome with
  | .ok f => (none, fs.set path (some f))
  | .error (e, left) => (some e, fs.set path left)

/-- Go: `filepath.Join(assetDir, "LoyalsoldierSite.dat")`, as a name inside the asset
directory. -/
def pathSiteDat : String := "LoyalsoldierSite.dat"

/-- Go: `filepath.Join(assetDir, "LoyalsoldierSite.dat.sha256sum")`. -/
def pathSiteDatSha256 : String := "LoyalsoldierSite.dat.sha256sum"

/-- Go: `filepath.Join(assetDir, "LoyalsoldierSite.dat.bak")`. -/
def backupDat : String := "LoyalsoldierSite.dat.bak"

/-- Modelled from the spec: `asset.IsGFWListExists` (package `core/v2ray/asset`, outside this
source file): whether "a local artifact file exists". -/
def asset.IsGFWListExists (fs : FS) : Bool := (fs pathSiteDat).isSome

/-- Modelled from the spec: `asset.GetGFWListModTime` (package `core/v2ray/asset`, outside this
source file): "reads its modification timestamp". -/
def asset.GetGFWListModTime (fault : Option Error) (fs : FS) : Except Error Time :=
  files.GetFileModTime fault pathSiteDat fs

/-! ## The version cache -/

/-- The results of `GetRemoteGFWListUpdateTime` together with the package variable `g` after
the call and the URLs requested, in order. -/
structure RemoteResult where
  gfwlist : GFWList
  err : Option Error
  g : GFWList
  requests : List String

def tagsURL : String := "https://api.github.com/repos/v2rayA/dist-v2ray-rules-dat/tags"

/-- Go: `func GetRemoteGFWListUpdateTime(c *http.Client) (gfwlist GFWList, err error)`; `g` is
the package variable. On an error the named result `gfwlist` keeps its zero value. -/
def GetRemoteGFWListUpdateTime (lib : Lib) (c : Client) (g : GFWList) : RemoteResult :=
  if !g.UpdateTime.IsZero then ⟨g, none, g, []⟩
  else
    match c 0 tagsURL with
    | .error e =>
      ⟨⟨⟨0⟩, ""⟩, some ((Error.newError "failed to get latest version of GFWList").Base e), g,
        [tagsURL]⟩
    | .ok resp =>
      let b := (io.ReadAll resp).1
      let tag := lib.gjsonStr b "0.name"
      let u := lib.gjsonStr b "0.commit.url"
      if tag = "" ∨ u = "" then
        ⟨⟨⟨0⟩, ""⟩, some (Error.newError
          "failed to get latest version of GFWList: fail in getting latest tag"), g, [tagsURL]⟩
      else
        match c 1 u with
        | .error e =>
          ⟨⟨⟨0⟩, ""⟩, some ((Error.newError "failed to get latest version of GFWList").Base e), g,
            [tagsURL, u]⟩
        | .ok resp2 =>
          let b2 := (io.ReadAll resp2).1
          let t := lib.gjsonTime b2 "commit.committer.date"
          if t.IsZero then
            ⟨⟨⟨0⟩, ""⟩, some (Error.newError
              "failed to get latest version of GFWList: fail in getting commit date of latest tag"),
              g, [tagsURL, u]⟩
          else ⟨⟨t, tag⟩, none, ⟨t, tag⟩, [tagsURL, u]⟩

/-- Calls of `GetRemoteGFWListUpdateTime` one after the other, each with the network of its
own; the results in order. -/
def callsInSequence (lib : Lib) : List Client → GFWList → List RemoteResult
  | [], _ => []
  | c :: cs, g =>
    let r := GetRemoteGFWListUpdateTime lib c g
    r :: callsInSequence lib cs r.g

/-- The package variable `g` after a sequence of calls. -/
def cacheAfter (lib : Lib) : List Client → GFWList → GFWList
  | [], g => g
  | c :: cs, g => cacheAfter lib cs (GetRemoteGFWListUpdateTime lib c g).g

/-! ## The staleness check -/

structure IsUpdateResult where
  update : Bool
  remoteTime : Time
  err : Option Error
  g : GFWList

/-- Go: `func IsUpdate() (update bool, remoteTime time.Time, err error)`. -/
def IsUpdate (lib : Lib) (c : Client) (modTimeFault : Option Error) (g : GFWList) (fs : FS) :
    IsUpdateResult :=
  let r := GetRemoteGFWListUpdateTime lib c g
  match r.err with
  | some e => ⟨false, ⟨0⟩, some e, r.g⟩
  | none =>
    let remoteTime := r.gfwlist.UpdateTime
    if !asset.IsGFWListExists fs then ⟨false, remoteTime, none, r.g⟩
    else
      match asset.GetGFWListModTime modTimeFault fs with
      | .error e => ⟨false, remoteTime, some e, r.g⟩
      | .ok t =>
        if !t.Before remoteTime then ⟨true, remoteTime, none, r.g⟩
        else ⟨false, remoteTime, none, r.g⟩

/-! ## The checksum verifier -/

/-- Go: `func checkSha256(p string, sha256 string) bool`. -/
def checkSha256 (fault : Option Error) (p : String) (sha256 : Bytes) (fs : FS) : Bool × FS :=
  match os.ReadFile fault p fs with
  | (.ok b, fs1) => (decide (hex.EncodeToString (libSha256.Sum256 b) = sha256), fs1)
  | (.error _, fs1) => (false, fs1)

def FailCheckSha : Error := Error.newError "failed to check sum256sum of GFWList file"

def DamagedFile : Error := Error.newError "damaged GFWList file, update it again please"

/-! ## Download, verify, swap -/

/-- What the environment answers to the calls of one run of `UpdateLocalGFWList`, in the order
of the calls. -/
structure Env where
  /-- Replies to the requests of `GetRemoteGFWListUpdateTime`. -/
  client : Client
  /-- Outcome of `os.Rename(pathSiteDat, backupDat)`. -/
  renameBackup : Option Error
  /-- Outcome of `gopeed.Down` for the URL. -/
  Down : String → Except (Error × Option File) File
  /-- Outcome of `http.Get` for the URL. -/
  Get : String → Except Error Response
  /-- Outcome of `os.WriteFile` of the sidecar. -/
  writeSha : Except (Error × Option File) Time
  /-- Outcome of `os.ReadFile(pathSiteDatSha256)`. -/
  readSha : Option Error
  /-- Outcome of `os.ReadFile(pathSiteDat)` in `checkSha256`. -/
  readDat : Option Error
  /-- Outcome of `os.Chtimes(pathSiteDat, ...)`. -/
  chtimes : Option Error
  /-- The modification time the file system stores when `os.Chtimes` asks for the given one. -/
  recorded : Time → Time
  /-- Outcome of `files.GetFileModTime(pathSiteDat)`. -/
  getModTime : Option Error
  /-- Outcome of `os.Remove(pathSiteDatSha256)`. -/
  removeSha : Option Error
  /-- Outcome of `os.Remove(backupDat)`. -/
  removeBak : Option Error
  /-- Outcome of `os.Rename(backupDat, pathSiteDat)` of the deferred function. -/
  restore : Option Error
  /-- Outcome of `os.Remove(pathSiteDat)` of the deferred function. -/
  removeDat : Option Error

/-- Go: `func plainDownload(path, url string) (err error)`. -/
def plainDownload (env : Env) (path url : String) (fs : FS) : Option Error × FS :=
  match env.Get url with
  | .error e => (some e, fs)
  | .ok resp =>
    match io.ReadAll resp with
    | (_, some e) => (some e, fs)
    | (b, none) => os.WriteFile env.writeSha path b fs

structure UpdateResult where
  localGFWListVersionAfterUpdate : String
  err : Option Error
  fs : FS
  g : GFWList

/-- Go, lines 147-155: the deferred function, run when the surrounding function returns. -/
def deferred (env : Env) (sucBackup : Bool) (err : Option Error) (fs : FS) : FS :=
  if err.isSome then
    if sucBackup then (os.Rename env.restore backupDat pathSiteDat fs).2
    else (os.Remove env.removeDat pathSiteDat fs).2
  else fs

/-- Go, lines 156-179: the statements after the `defer`, up to the `return`; the label, the
error and the file system at the `return`. -/
def verifyAndStamp (lib : Lib) (env : Env) (gfwlist : GFWList) (fs : FS) :
    String × Option Error × FS :=
  match os.ReadFile env.readSha pathSiteDatSha256 fs with
  | (.error _, fs1) => ("", some FailCheckSha, fs1)
  | (.ok b, fs1) =>
    let f := bytes.Fields b
    if f.length < 2 then ("", some FailCheckSha, fs1)
    else
      match checkSha256 env.readDat pathSiteDat (f.getD 0 []) fs1 with
      | (false, fs2) => ("", some (Error.newErrorOf DamagedFile), fs2)
      | (true, fs2) =>
        let fs3 := (os.Chtimes env.chtimes env.recorded pathSiteDat gfwlist.UpdateTime fs2).2
        let r := files.GetFileModTime env.getModTime pathSiteDat fs3
        let err := match r with
          | .ok _ => none
          | .error e => some e
        let label := match r with
          | .ok t => lib.Format t
          | .error _ => ""
        let fs4 := (os.Remove env.removeSha pathSiteDatSha256 fs3).2
        let fs5 := (os.Remove env.removeBak backupDat fs4).2
        (label, err, fs5)

/-- Go, line 134: the URL `u` of the artifact. -/
def UpdateLocalGFWList.u (gfwlist : GFWList) : String :=
  "https://cdn.jsdelivr.net/gh/v2rayA/dist-v2ray-rules-dat@" ++ gfwlist.Tag ++ "/geosite.dat"

/-- Go, line 142: the URL `u2` of the sidecar. -/
def UpdateLocalGFWList.u2 (gfwlist : GFWList) : String :=
  "https://cdn.jsdelivr.net/gh/v2rayA/dist-v2ray-rules-dat@" ++ gfwlist.Tag ++
    "/geosite.dat.sha256sum"

/-- Go, lines 134-180: the two downloads, then the `defer` and the statements after it. -/
def downloadAndVerify (lib : Lib) (env : Env) (gfwlist : GFWList) (sucBackup : Bool) (fs : FS)
    (g : GFWList) : UpdateResult :=
  match gopeed.Down (env.Down (UpdateLocalGFWList.u gfwlist)) pathSiteDat fs with
  | (some e, fs1) => ⟨"", some e, fs1, g⟩
  | (none, fs1) =>
    match plainDownload env pathSiteDatSha256 (UpdateLocalGFWList.u2 gfwlist) fs1 with
    | (some e, fs2) => ⟨"", some e, fs2, g⟩
    | (none, fs2) =>
      match verifyAndStamp lib env gfwlist fs2 with
      | (label, err, fs3) => ⟨label, err, deferred env sucBackup err fs3, g⟩

/-- Go: `func UpdateLocalGFWList() (localGFWListVersionAfterUpdate string, err error)`; `g` is
the package variable and `fs` the asset directory before the call. -/
def UpdateLocalGFWList (lib : Lib) (env : Env) (g : GFWList) (fs : FS) : UpdateResult :=
  let r := GetRemoteGFWListUpdateTime lib env.client g
  match r.err with
  | some e => ⟨"", some e, fs, r.g⟩
  | none =>
    match os.Stat pathSiteDat fs with
    | .ok _ =>
      match os.Rename env.renameBackup pathSiteDat backupDat fs with
      | (some e, fs1) =>
        ⟨"", some ((Error.newError "fail to backup gfwlist file").Base e), fs1, r.g⟩
      | (none, fs1) => downloadAndVerify lib env r.gfwlist true fs1 r.g
    | .error _ => downloadAndVerify lib env r.gfwlist false fs r.g

/-- The invariant of the version cache: it is empty (zero `UpdateTime`), or it holds both a
non-empty `Tag` and a non-zero `UpdateTime`. -/
def CacheInv (g : GFWList) : Prop :=
  g.UpdateTime.IsZero = true ∨ (g.Tag ≠ "" ∧ g.UpdateTime.IsZero = false)

/-! ## Examples used to instantiate the theorems -/

/-- The instant 2024-11-01T00:00:00Z, the commit date of the examples. -/
def date20241101 : Time := ⟨63866016000000000000⟩

/-- The instant 2500-01-01T00:00:00Z, beyond the int64 range of Unix nanoseconds. -/
def date25000101 : Time := ⟨78860822400000000000⟩

/-- The instant 1915-06-14T00:25:26.290448384Z, which is 2500-01-01T00:00:00Z after its Unix
nanoseconds have wrapped around in int64. -/
def date25000101Wrapped : Time := ⟨60414078326290448384⟩

/-- The instant 2024-10-01T00:00:00Z, the modification time of the prior artifact. -/
def date20241001 : Time := ⟨63863337600000000000⟩

/-- The instant 2024-11-04T12:00:00Z, the wall clock when the artifact is downloaded. -/
def wallClock : Time := ⟨63866318400000000000⟩

/-- The instant 2024-11-04T12:00:01Z, the wall clock when the sidecar is written. -/
def wallClockSha : Time := ⟨63866318401000000000⟩

/-- A decimal number padded with zeros on the left to `w` digits. -/
def padZero (w n : Nat) : String :=
  String.mk (List.replicate (w - (toString n).length) (Char.ofNat 48)) ++ toString n

/-- The date `YYYY-MM-DD` of an instant in UTC (proleptic Gregorian calendar), for the time
zone UTC as the local one. -/
def formatUTC (t : Time) : String :=
  let days := t.instant / 86400000000000 - 719162
  let z := days + 719468
  let era := z / 146097
  let doe := z - era * 146097
  let yoe := (doe - doe / 1460 + doe / 36524 - doe / 146096) / 365
  let doy := doe - (365 * yoe + yoe / 4 - yoe / 100)
  let mp := (5 * doy + 2) / 153
  let d := doy - (153 * mp + 2) / 5 + 1
  let m := if mp < 10 then mp + 3 else mp - 9
  let y := yoe + era * 400 + (if m ≤ 2 then 1 else 0)
  padZero 4 y.toNat ++ "-" ++ padZero 2 m.toNat ++ "-" ++ padZero 2 d.toNat

/-- A stand-in for the JSON library and the locale: the tag and the commit URL are fixed, the
commit date of a non-empty reply is 2024-11-01T00:00:00Z, the local time zone is UTC. -/
def exampleLib : Lib where
  gjsonStr := fun _ path => if path = "0.name" then "202411" else "https://api.github.com/c"
  gjsonTime := fun b _ => if b = [] then ⟨0⟩ else date20241101
  Format := formatUTC

/-- As `exampleLib`, but the commit date read from the reply is 2500-01-01T00:00:00Z. -/
def farLib : Lib := { exampleLib with gjsonTime := fun _ _ => date25000101 }

/-- As `exampleLib`, but the commit date read from the reply is 2024-11-01T00:00:01Z. -/
def oddLib : Lib := { exampleLib with gjsonTime := fun _ _ => ⟨63866016001000000000⟩ }

/-- A file system that stores modification times in steps of two seconds, as FAT does. -/
def twoSeconds (t : Time) : Time := ⟨t.instant / 2000000000 * 2000000000⟩

/-- A network that answers every request with a seven-byte body. -/
def exampleClient : Client := fun _ _ => .ok ⟨[1, 2, 3, 4, 5, 6, 7], none⟩

/-- A network that is down. -/
def deadClient : Client := fun _ _ => .error (Error.os "network is unreachable")

/-- The zero value of the package variable `g`. -/
def emptyCache : GFWList := ⟨⟨0⟩, ""⟩

/-- The content `abc` of the examples. -/
def abc : Bytes := [97, 98, 99]

/-- A sidecar for `abc`: the digest `ba7816bf...15ad`, two spaces, `geosite.dat`, line feed. -/
def sidecarAbc : Bytes :=
  [98, 97, 55, 56, 49, 54, 98, 102, 56, 102, 48, 49, 99, 102, 101, 97,
   52, 49, 52, 49, 52, 48, 100, 101, 53, 100, 97, 101, 50, 50, 50, 51,
   98, 48, 48, 51, 54, 49, 97, 51, 57, 54, 49, 55, 55, 97, 57, 99,
   98, 52, 49, 48, 102, 102, 54, 49, 102, 50, 48, 48, 49, 53, 97, 100,
   32, 32, 103, 101, 111, 115, 105, 116, 101, 46, 100, 97, 116, 10]

/-- An environment in which every call succeeds: the artifact `abc` is written at the wall
clock 2024-11-04T12:00:00Z and its sidecar a second later, and the file system stores the
times it is given exactly. -/
def goodEnv : Env where
  client := exampleClient
  renameBackup := none
  Down := fun _ => .ok ⟨abc, wallClock⟩
  Get := fun _ => .ok ⟨sidecarAbc, none⟩
  writeSha := .ok wallClockSha
  readSha := none
  readDat := none
  chtimes := none
  recorded := fun t => t
  getModTime := none
  removeSha := none
  removeBak := none
  restore := none
  removeDat := none

/-- An asset directory that holds an artifact `[1, 2, 3]` modified at 2024-10-01T00:00:00Z. -/
def oldFS : FS := fun p => if p = pathSiteDat then some ⟨[1, 2, 3], date20241001⟩ else none

/-- An empty asset directory. -/
def emptyFS : FS := fun _ => none

/-- As `goodEnv`, but the artifact received is `abd`, which the sidecar of `abc` rejects. -/
def damagedEnv : Env := { goodEnv with Down := fun _ => .ok ⟨[97, 98, 100], wallClock⟩ }

/-- As `goodEnv`, but the sidecar received holds the digest and nothing else. -/
def digestOnlyEnv : Env := { goodEnv with Get := fun _ => .ok ⟨sidecarAbc.take 64, none⟩ }

/-- As `goodEnv`, but `os.Chtimes` fails. -/
def chtimesFailEnv : Env := { goodEnv with chtimes := some (Error.os "operation not permitted") }

/-- As `goodEnv`, but `files.GetFileModTime` fails. -/
def modTimeFailEnv : Env := { goodEnv with getModTime := some (Error.os "input/output error") }

/-- As `goodEnv`, but `gopeed.Down` fails and leaves nothing at the path. -/
def downFailEnv : Env :=
  { goodEnv with Down := fun _ => .error (Error.os "connection reset by peer", none) }

/-- As `goodEnv`, but `http.Get` of the sidecar fails. -/
def sidecarFailEnv : Env :=
  { goodEnv with Get := fun _ => .error (Error.os "connection reset by peer") }

/-- As `modTimeFailEnv`, and `os.Remove(backupDat)` fails too. -/
def removeFailEnv : Env :=
  { modTimeFailEnv with removeBak := some (Error.os "operation not permitted") }

/-- As `modTimeFailEnv`, and `os.Remove(pathSiteDat)` of the deferred function fails too. -/
def removeDatFailEnv : Env :=
  { modTimeFailEnv with removeDat := some (Error.os "input/output error") }

/-- As `goodEnv`, but the file system stores times in steps of two seconds. -/
def coarseEnv : Env := { goodEnv with recorded := twoSeconds }

/-! ## Basic facts -/

@[simp] theorem FS.set_same (fs : FS) (name : String) (v : Option File) :
    (fs.set name v) name = v := by
  simp [FS.set]

@[simp] theorem FS.set_other (fs : FS) (name q : String) (v : Option File) (h : q ≠ name) :
    (fs.set name v) q = fs q := by
  simp [FS.set, h]

theorem dat_ne_bak : pathSiteDat ≠ backupDat := by decide

theorem dat_ne_sha : pathSiteDat ≠ pathSiteDatSha256 := by decide

theorem bak_ne_sha : backupDat ≠ pathSiteDatSha256 := by decide

theorem remote_cached (lib : Lib) (c : Client) (g : GFWList) (h : g.UpdateTime.IsZero = false) :
    GetRemoteGFWListUpdateTime lib c g = ⟨g, none, g, []⟩ := by
  simp [GetRemoteGFWListUpdateTime, h]

/-- A successful lookup on an empty cache stores what it returns, issues two requests, and the
stored version has a non-empty tag and a non-zero time. -/
theorem remote_success (lib : Lib) (c : Client) (g : GFWList) (h : g.UpdateTime.IsZero = true)
    (hok : (GetRemoteGFWListUpdateTime lib c g).err = none) :
    (GetRemoteGFWListUpdateTime lib c g).g = (GetRemoteGFWListUpdateTime lib c g).gfwlist ∧
    (GetRemoteGFWListUpdateTime lib c g).gfwlist.UpdateTime.IsZero = false ∧
    (GetRemoteGFWListUpdateTime lib c g).gfwlist.Tag ≠ "" ∧
    (GetRemoteGFWListUpdateTime lib c g).requests.length = 2 := by
  revert hok
  unfold GetRemoteGFWListUpdateTime
  simp only [h, Bool.not_true, Bool.false_eq_true, if_false]
  split
  · simp
  · split
    · simp
    · split
      · simp
      · split
        · simp
        · rename_i htag _ _ _ ht
          intro _
          refine ⟨rfl, by simpa using ht, ?_, rfl⟩
          intro h0
          exact htag (Or.inl h0)

/-- A failed lookup leaves the package variable as it was. -/
theorem remote_error_keeps (lib : Lib) (c : Client) (g : GFWList)
    (herr : (GetRemoteGFWListUpdateTime lib c g).err ≠ none) :
    (GetRemoteGFWListUpdateTime lib c g).g = g := by
  revert herr
  unfold GetRemoteGFWListUpdateTime
  dsimp only
  split
  · simp
  · split
    · simp
    · split
      · simp
      · split
        · simp
        · split
          · simp
          · simp

theorem remote_keeps_inv (lib : Lib) (c : Client) (g : GFWList) (h : CacheInv g) :
    CacheInv (GetRemoteGFWListUpdateTime lib c g).g := by
  cases hz : g.UpdateTime.IsZero with
  | false => rw [remote_cached lib c g hz]; exact h
  | true =>
    cases he : (GetRemoteGFWListUpdateTime lib c g).err with
    | some e =>
      rw [remote_error_keeps lib c g (by simp [he])]; exact h
    | none =>
      obtain ⟨h1, h2, h3, _⟩ := remote_success lib c g hz he
      rw [h1]
      exact Or.inr ⟨h3, h2⟩

theorem cacheAfter_inv (lib : Lib) (cs : List Client) :
    ∀ g, CacheInv g → CacheInv (cacheAfter lib cs g) := by
  induction cs with
  | nil => intro g h; exact h
  | cons c cs ih => intro g h; exact ih _ (remote_keeps_inv lib c g h)

theorem calls_cached (lib : Lib) (cs : List Client) (g : GFWList)
    (h : g.UpdateTime.IsZero = false) :
    ∀ r ∈ callsInSequence lib cs g, r.gfwlist = g ∧ r.err = none ∧ r.requests = [] ∧ r.g = g := by
  induction cs with
  | nil => intro r hr; simp [callsInSequence] at hr
  | cons c cs ih =>
    intro r hr
    simp only [callsInSequence, remote_cached lib c g h, List.mem_cons] at hr
    rcases hr with rfl | hr
    · exact ⟨rfl, rfl, rfl, rfl⟩
    · exact ih r hr

theorem hextable_getD_mem (n : Nat) (h : n < 16) : hex.hextable.getD n 0 ∈ hex.hextable := by
  interval_cases n <;> decide

/-- The encoding consists of the digits `0-9a-f` only. -/
theorem EncodeToString_lowercase (src : Bytes) :
    ∀ x ∈ hex.EncodeToString src, x ∈ hex.hextable := by
  intro x hx
  simp only [hex.EncodeToString, List.mem_flatMap, List.mem_cons, List.mem_singleton,
    List.not_mem_nil, or_false] at hx
  obtain ⟨v, _, rfl | rfl⟩ := hx
  · exact hextable_getD_mem _ (by omega)
  · exact hextable_getD_mem _ (by omega)

@[simp] theorem set_bak_at_dat (fs : FS) (v : Option File) :
    (fs.set backupDat v) pathSiteDat = fs pathSiteDat :=
  FS.set_other fs backupDat pathSiteDat v dat_ne_bak

@[simp] theorem set_sha_at_dat (fs : FS) (v : Option File) :
    (fs.set pathSiteDatSha256 v) pathSiteDat = fs pathSiteDat :=
  FS.set_other fs pathSiteDatSha256 pathSiteDat v dat_ne_sha

@[simp] theorem set_dat_at_bak (fs : FS) (v : Option File) :
    (fs.set pathSiteDat v) backupDat = fs backupDat :=
  FS.set_other fs pathSiteDat backupDat v dat_ne_bak.symm

@[simp] theorem set_sha_at_bak (fs : FS) (v : Option File) :
    (fs.set pathSiteDatSha256 v) backupDat = fs backupDat :=
  FS.set_other fs pathSiteDatSha256 backupDat v bak_ne_sha

@[simp] theorem set_dat_at_sha (fs : FS) (v : Option File) :
    (fs.set pathSiteDat v) pathSiteDatSha256 = fs pathSiteDatSha256 :=
  FS.set_other fs pathSiteDat pathSiteDatSha256 v dat_ne_sha.symm

@[simp] theorem set_bak_at_sha (fs : FS) (v : Option File) :
    (fs.set backupDat v) pathSiteDatSha256 = fs pathSiteDatSha256 :=
  FS.set_other fs backupDat pathSiteDatSha256 v bak_ne_sha.symm

/-- The run up to the `defer` when a prior artifact is backed up and both downloads succeed. -/
theorem run_with_backup (lib : Lib) (env : Env) (g : GFWList) (fs : FS) (old newf : File)
    (resp : Response) (tw : Time)
    (hres : (GetRemoteGFWListUpdateTime lib env.client g).err = none)
    (hold : fs pathSiteDat = some old)
    (hren : env.renameBackup = none)
    (hD : env.Down (UpdateLocalGFWList.u (GetRemoteGFWListUpdateTime lib env.client g).gfwlist)
      = .ok newf)
    (hG : env.Get (UpdateLocalGFWList.u2 (GetRemoteGFWListUpdateTime lib env.client g).gfwlist)
      = .ok resp)
    (hrd : resp.readErr = none)
    (hW : env.writeSha = .ok tw) :
    UpdateLocalGFWList lib env g fs =
      ⟨(verifyAndStamp lib env (GetRemoteGFWListUpdateTime lib env.client g).gfwlist
          ((((fs.set pathSiteDat none).set backupDat (some old)).set pathSiteDat
            (some newf)).set pathSiteDatSha256 (some ⟨resp.data, tw⟩))).1,
       (verifyAndStamp lib env (GetRemoteGFWListUpdateTime lib env.client g).gfwlist
          ((((fs.set pathSiteDat none).set backupDat (some old)).set pathSiteDat
            (some newf)).set pathSiteDatSha256 (some ⟨resp.data, tw⟩))).2.1,
       deferred env true
        (verifyAndStamp lib env (GetRemoteGFWListUpdateTime lib env.client g).gfwlist
          ((((fs.set pathSiteDat none).set backupDat (some old)).set pathSiteDat
            (some newf)).set pathSiteDatSha256 (some ⟨resp.data, tw⟩))).2.1
        (verifyAndStamp lib env (GetRemoteGFWListUpdateTime lib env.client g).gfwlist
          ((((fs.set pathSiteDat none).set backupDat (some old)).set pathSiteDat
            (some newf)).set pathSiteDatSha256 (some ⟨resp.data, tw⟩))).2.2,
       (GetRemoteGFWListUpdateTime lib env.client g).g⟩ := by
  simp [UpdateLocalGFWList, hres, os.Stat, hold, os.Rename, hren, downloadAndVerify,
    gopeed.Down, hD, plainDownload, hG, io.ReadAll, hrd, os.WriteFile, hW]

/-- The run up to the `defer` when there is no prior artifact and both downloads succeed. -/
theorem run_without_backup (lib : Lib) (env : Env) (g : GFWList) (fs : FS) (newf : File)
    (resp : Response) (tw : Time)
    (hres : (GetRemoteGFWListUpdateTime lib env.client g).err = none)
    (hold : fs pathSiteDat = none)
    (hD : env.Down (UpdateLocalGFWList.u (GetRemoteGFWListUpdateTime lib env.client g).gfwlist)
      = .ok newf)
    (hG : env.Get (UpdateLocalGFWList.u2 (GetRemoteGFWListUpdateTime lib env.client g).gfwlist)
      = .ok resp)
    (hrd : resp.readErr = none)
    (hW : env.writeSha = .ok tw) :
    UpdateLocalGFWList lib env g fs =
      ⟨(verifyAndStamp lib env (GetRemoteGFWListUpdateTime lib env.client g).gfwlist
          ((fs.set pathSiteDat (some newf)).set pathSiteDatSha256 (some ⟨resp.data, tw⟩))).1,
       (verifyAndStamp lib env (GetRemoteGFWListUpdateTime lib env.client g).gfwlist
          ((fs.set pathSiteDat (some newf)).set pathSiteDatSha256 (some ⟨resp.data, tw⟩))).2.1,
       deferred env false
        (verifyAndStamp lib env (GetRemoteGFWListUpdateTime lib env.client g).gfwlist
          ((fs.set pathSiteDat (some newf)).set pathSiteDatSha256 (some ⟨resp.data, tw⟩))).2.1
        (verifyAndStamp lib env (GetRemoteGFWListUpdateTime lib env.client g).gfwlist
          ((fs.set pathSiteDat (some newf)).set pathSiteDatSha256 (some ⟨resp.data, tw⟩))).2.2,
       (GetRemoteGFWListUpdateTime lib env.client g).g⟩ := by
  simp [UpdateLocalGFWList, hres, os.Stat, hold, downloadAndVerify,
    gopeed.Down, hD, plainDownload, hG, io.ReadAll, hrd, os.WriteFile, hW]

theorem checkSha256_snd (fault : Option Error) (p : String) (s : Bytes) (fs : FS) :
    (checkSha256 fault p s fs).2 = fs := by
  unfold checkSha256 os.ReadFile
  cases fault <;> cases fs p <;> rfl

theorem checkSha256_eta (fault : Option Error) (p : String) (s : Bytes) (fs : FS) :
    checkSha256 fault p s fs = ((checkSha256 fault p s fs).1, fs) :=
  Prod.ext rfl (checkSha256_snd fault p s fs)

theorem verify_unreadable (lib : Lib) (env : Env) (gfw : GFWList) (fs : FS) (e : Error)
    (hread : env.readSha = some e) :
    verifyAndStamp lib env gfw fs = ("", some FailCheckSha, fs) := by
  simp [verifyAndStamp, os.ReadFile, hread]

theorem verify_short (lib : Lib) (env : Env) (gfw : GFWList) (fs : FS) (sc : File)
    (hread : env.readSha = none) (hsc : fs pathSiteDatSha256 = some sc)
    (hlen : (bytes.Fields sc.content).length < 2) :
    verifyAndStamp lib env gfw fs = ("", some FailCheckSha, fs) := by
  simp [verifyAndStamp, os.ReadFile, hread, hsc, hlen]

theorem verify_damaged (lib : Lib) (env : Env) (gfw : GFWList) (fs : FS) (sc : File)
    (hread : env.readSha = none) (hsc : fs pathSiteDatSha256 = some sc)
    (hlen : 2 ≤ (bytes.Fields sc.content).length)
    (hchk : (checkSha256 env.readDat pathSiteDat ((bytes.Fields sc.content).getD 0 []) fs).1
      = false) :
    verifyAndStamp lib env gfw fs = ("", some (Error.newErrorOf DamagedFile), fs) := by
  have hlen2 : ¬ (bytes.Fields sc.content).length < 2 := by omega
  unfold verifyAndStamp
  simp only [os.ReadFile, hread, hsc, hlen2, if_false]
  rw [checkSha256_eta, hchk]

theorem verify_pass (lib : Lib) (env : Env) (gfw : GFWList) (fs : FS) (sc : File)
    (hread : env.readSha = none) (hsc : fs pathSiteDatSha256 = some sc)
    (hlen : 2 ≤ (bytes.Fields sc.content).length)
    (hchk : (checkSha256 env.readDat pathSiteDat ((bytes.Fields sc.content).getD 0 []) fs).1
      = true) :
    verifyAndStamp lib env gfw fs =
      (match files.GetFileModTime env.getModTime pathSiteDat
          (os.Chtimes env.chtimes env.recorded pathSiteDat gfw.UpdateTime fs).2 with
        | .ok t => lib.Format t
        | .error _ => "",
       match files.GetFileModTime env.getModTime pathSiteDat
          (os.Chtimes env.chtimes env.recorded pathSiteDat gfw.UpdateTime fs).2 with
        | .ok _ => none
        | .error e => some e,
       (os.Remove env.removeBak backupDat (os.Remove env.removeSha pathSiteDatSha256
          (os.Chtimes env.chtimes env.recorded pathSiteDat gfw.UpdateTime fs).2).2).2) := by
  have hlen2 : ¬ (bytes.Fields sc.content).length < 2 := by omega
  unfold verifyAndStamp
  simp only [os.ReadFile, hread, hsc, hlen2, if_false]
  rw [checkSha256_eta, hchk]

/-- A passing check means that the artifact is read and its digest is the expected one. -/
theorem checkSha256_true_iff (fault : Option Error) (p : String) (s : Bytes) (fs : FS) :
    (checkSha256 fault p s fs).1 = true ↔
      ∃ f, fault = none ∧ fs p = some f ∧ hex.EncodeToString (libSha256.Sum256 f.content) = s := by
  unfold checkSha256 os.ReadFile
  cases fault <;> cases fs p <;> simp

theorem spaceWidth_ascii (b : Nat) (rest : Bytes) (h1 : bytes.asciiSpace b = false)
    (h2 : b < 128) : bytes.spaceWidth (b :: rest) = 0 := by
  have e1 : (b == 194) = false := by simp; omega
  have e2 : (b == 225) = false := by simp; omega
  have e3 : (b == 226) = false := by simp; omega
  have e4 : (b == 227) = false := by simp; omega
  cases rest with
  | nil => simp [bytes.spaceWidth, h1]
  | cons b1 rest2 =>
    cases rest2 with
    | nil => simp [bytes.spaceWidth, h1, e1]
    | cons b2 rest3 => simp [bytes.spaceWidth, h1, e1, bytes.isSpace3, e2, e3, e4]

/-- A byte string without white space and without bytes above ASCII is one field at most. -/
theorem fieldsFrom_ascii (s : Bytes) :
    ∀ cur : Bytes, (∀ x ∈ s, bytes.asciiSpace x = false ∧ x < 128) →
      bytes.fieldsFrom s 0 cur = bytes.flush (cur ++ s) := by
  induction s with
  | nil => intro cur _; simp [bytes.fieldsFrom]
  | cons b rest ih =>
    intro cur h
    have hb := h b (List.mem_cons_self b rest)
    have hrest : ∀ x ∈ rest, bytes.asciiSpace x = false ∧ x < 128 :=
      fun x hx => h x (List.mem_cons_of_mem b hx)
    rw [bytes.fieldsFrom, spaceWidth_ascii b rest hb.1 hb.2]
    simp only
    rw [ih (cur ++ [b]) hrest]
    simp

theorem hextable_plain (x : Nat) (hx : x ∈ hex.hextable) :
    bytes.asciiSpace x = false ∧ x < 128 := by
  simp only [hex.hextable, List.mem_cons, List.mem_singleton, List.not_mem_nil, or_false] at hx
  rcases hx with rfl | rfl | rfl | rfl | rfl | rfl | rfl | rfl | rfl | rfl | rfl | rfl | rfl |
    rfl | rfl | rfl <;> decide

/-- A sidecar that is only a hexadecimal digest has fewer than two fields. -/
theorem Fields_digest_only (d : Bytes) : (bytes.Fields (hex.EncodeToString d)).length < 2 := by
  unfold bytes.Fields
  rw [fieldsFrom_ascii _ [] (fun x hx => hextable_plain x (EncodeToString_lowercase d x hx))]
  unfold bytes.flush
  split <;> simp

/-- The artifact after `os.Chtimes`: stamped when the call succeeds, untouched when not. -/
theorem chtimes_at_dat (fault : Option Error) (recorded : Time → Time) (T : Time) (fs : FS)
    (f : File) (hf : fs pathSiteDat = some f) :
    (os.Chtimes fault recorded pathSiteDat T fs).2 pathSiteDat =
      some ⟨f.content, if fault = none then os.Chtimes.set recorded T f.modTime
        else f.modTime⟩ := by
  cases fault with
  | none => simp [os.Chtimes, hf]
  | some e => simp [os.Chtimes, hf]

/-- The state at the `defer` when the backup step and both downloads have succeeded: the
sidecar and the artifact are the downloaded ones, the backup path holds what the artifact path
held before the call. -/
theorem run_to_defer (lib : Lib) (env : Env) (g : GFWList) (fs : FS) (newf : File)
    (resp : Response) (tw : Time)
    (hres : (GetRemoteGFWListUpdateTime lib env.client g).err = none)
    (hren : (fs pathSiteDat).isSome = true → env.renameBackup = none)
    (hD : env.Down (UpdateLocalGFWList.u (GetRemoteGFWListUpdateTime lib env.client g).gfwlist)
      = .ok newf)
    (hG : env.Get (UpdateLocalGFWList.u2 (GetRemoteGFWListUpdateTime lib env.client g).gfwlist)
      = .ok resp)
    (hrd : resp.readErr = none)
    (hW : env.writeSha = .ok tw) :
    ∃ fs2 : FS, fs2 pathSiteDatSha256 = some ⟨resp.data, tw⟩ ∧ fs2 pathSiteDat = some newf ∧
      ((fs pathSiteDat).isSome = true → fs2 backupDat = fs pathSiteDat) ∧
      UpdateLocalGFWList lib env g fs =
        ⟨(verifyAndStamp lib env (GetRemoteGFWListUpdateTime lib env.client g).gfwlist fs2).1,
         (verifyAndStamp lib env (GetRemoteGFWListUpdateTime lib env.client g).gfwlist fs2).2.1,
         deferred env (fs pathSiteDat).isSome
          (verifyAndStamp lib env (GetRemoteGFWListUpdateTime lib env.client g).gfwlist fs2).2.1
          (verifyAndStamp lib env (GetRemoteGFWListUpdateTime lib env.client g).gfwlist fs2).2.2,
         (GetRemoteGFWListUpdateTime lib env.client g).g⟩ := by
  cases hold : fs pathSiteDat with
  | none =>
    refine ⟨_, ?_, ?_, ?_, run_without_backup lib env g fs newf resp tw hres hold hD hG hrd hW⟩
    · simp
    · simp
    · simp
  | some old =>
    have hren2 : env.renameBackup = none := hren (by simp [hold])
    refine ⟨_, ?_, ?_, ?_,
      run_with_backup lib env g fs old newf resp tw hres hold hren2 hD hG hrd hW⟩
    · simp
    · simp
    · simp

/-- After a passing check the error of the run is the one of `files.GetFileModTime`. -/
theorem verify_pass_err (lib : Lib) (env : Env) (gfw : GFWList) (fs : FS) (sc newf : File)
    (hread : env.readSha = none) (hsc : fs pathSiteDatSha256 = some sc)
    (hdat : fs pathSiteDat = some newf)
    (hlen : 2 ≤ (bytes.Fields sc.content).length)
    (hchk : (checkSha256 env.readDat pathSiteDat ((bytes.Fields sc.content).getD 0 []) fs).1
      = true) :
    (verifyAndStamp lib env gfw fs).2.1 = env.getModTime ∧
    (verifyAndStamp lib env gfw fs).1 =
      (match env.getModTime with
        | none => lib.Format (if env.chtimes = none
            then os.Chtimes.set env.recorded gfw.UpdateTime newf.modTime else newf.modTime)
        | some _ => "") := by
  rw [verify_pass lib env gfw fs sc hread hsc hlen hchk]
  simp only [files.GetFileModTime, chtimes_at_dat env.chtimes env.recorded gfw.UpdateTime fs newf hdat]
  cases env.getModTime <;> simp

theorem remove_other (fault : Option Error) (name q : String) (fs : FS) (h : q ≠ name) :
    (os.Remove fault name fs).2 q = fs q := by
  unfold os.Remove
  cases fault <;> cases fs name <;> simp [h]

theorem remove_same (name : String) (fs : FS) : (os.Remove none name fs).2 name = none := by
  unfold os.Remove
  cases h : fs name <;> simp [h]

theorem rename_missing (fault : Option Error) (oldpath newpath : String) (fs : FS)
    (h : fs oldpath = none) : (os.Rename fault oldpath newpath fs).2 = fs := by
  unfold os.Rename
  cases fault <;> simp [h]

/-- A run that returns no error has passed the backup step and both downloads. -/
theorem run_success_inv (lib : Lib) (env : Env) (g : GFWList) (fs : FS)
    (hres : (GetRemoteGFWListUpdateTime lib env.client g).err = none)
    (hok : (UpdateLocalGFWList lib env g fs).err = none) :
    ∃ (newf : File) (resp : Response) (tw : Time),
      ((fs pathSiteDat).isSome = true → env.renameBackup = none) ∧
      env.Down (UpdateLocalGFWList.u (GetRemoteGFWListUpdateTime lib env.client g).gfwlist)
        = .ok newf ∧
      env.Get (UpdateLocalGFWList.u2 (GetRemoteGFWListUpdateTime lib env.client g).gfwlist)
        = .ok resp ∧
      resp.readErr = none ∧ env.writeSha = .ok tw := by
  revert hok
  unfold UpdateLocalGFWList
  simp only [hres, os.Stat]
  have key : ∀ (suc : Bool) (fs1 : FS),
      (downloadAndVerify lib env (GetRemoteGFWListUpdateTime lib env.client g).gfwlist suc fs1
        (GetRemoteGFWListUpdateTime lib env.client g).g).err = none →
      ∃ (newf : File) (resp : Response) (tw : Time),
        env.Down (UpdateLocalGFWList.u (GetRemoteGFWListUpdateTime lib env.client g).gfwlist)
          = .ok newf ∧
        env.Get (UpdateLocalGFWList.u2 (GetRemoteGFWListUpdateTime lib env.client g).gfwlist)
          = .ok resp ∧
        resp.readErr = none ∧ env.writeSha = .ok tw := by
    intro suc fs1
    unfold downloadAndVerify gopeed.Down plainDownload io.ReadAll os.WriteFile
    cases hD : env.Down (UpdateLocalGFWList.u
      (GetRemoteGFWListUpdateTime lib env.client g).gfwlist) with
    | error p => simp
    | ok newf =>
      cases hG : env.Get (UpdateLocalGFWList.u2
        (GetRemoteGFWListUpdateTime lib env.client g).gfwlist) with
      | error e => simp
      | ok resp =>
        cases hrd : resp.readErr with
        | some e => simp [hrd]
        | none =>
          cases hW : env.writeSha with
          | error p => rcases p with ⟨e, left⟩; simp [hrd]
          | ok tw => intro _; exact ⟨newf, resp, tw, rfl, rfl, hrd, rfl⟩
  cases hold : fs pathSiteDat with
  | none =>
    simp only
    intro h
    obtain ⟨newf, resp, tw, h1, h2, h3, h4⟩ := key false fs h
    exact ⟨newf, resp, tw, by simp, h1, h2, h3, h4⟩
  | some old =>
    simp only [os.Rename, hold]
    cases hren : env.renameBackup with
    | some e => simp
    | none =>
      simp only
      intro h
      obtain ⟨newf, resp, tw, h1, h2, h3, h4⟩ := key true _ h
      exact ⟨newf, resp, tw, by simp, h1, h2, h3, h4⟩

/-- A verification that returns no error has read a sidecar of two fields at least and has
passed the check. -/
theorem verify_success_inv (lib : Lib) (env : Env) (gfw : GFWList) (fs : FS) (sc : File)
    (hsc : fs pathSiteDatSha256 = some sc)
    (hok : (verifyAndStamp lib env gfw fs).2.1 = none) :
    env.readSha = none ∧ 2 ≤ (bytes.Fields sc.content).length ∧
    (checkSha256 env.readDat pathSiteDat ((bytes.Fields sc.content).getD 0 []) fs).1 = true := by
  cases hread : env.readSha with
  | some e =>
    rw [verify_unreadable lib env gfw fs e hread] at hok
    exact absurd hok (by simp)
  | none =>
    by_cases hlen : (bytes.Fields sc.content).length < 2
    · rw [verify_short lib env gfw fs sc hread hsc hlen] at hok
      exact absurd hok (by simp)
    · have hlen2 : 2 ≤ (bytes.Fields sc.content).length := by omega
      cases hchk : (checkSha256 env.readDat pathSiteDat
          ((bytes.Fields sc.content).getD 0 []) fs).1 with
      | false =>
        rw [verify_damaged lib env gfw fs sc hread hsc hlen2 hchk] at hok
        exact absurd hok (by simp)
      | true => exact ⟨rfl, hlen2, rfl⟩

/-- The artifact at the `return` after a passing check. -/
theorem verify_pass_dat (lib : Lib) (env : Env) (gfw : GFWList) (fs : FS) (sc newf : File)
    (hread : env.readSha = none) (hsc : fs pathSiteDatSha256 = some sc)
    (hdat : fs pathSiteDat = some newf)
    (hlen : 2 ≤ (bytes.Fields sc.content).length)
    (hchk : (checkSha256 env.readDat pathSiteDat ((bytes.Fields sc.content).getD 0 []) fs).1
      = true) :
    (verifyAndStamp lib env gfw fs).2.2 pathSiteDat =
      some ⟨newf.content, if env.chtimes = none
        then os.Chtimes.set env.recorded gfw.UpdateTime newf.modTime else newf.modTime⟩ := by
  rw [verify_pass lib env gfw fs sc hread hsc hlen hchk]
  simp only
  rw [remove_other _ _ _ _ dat_ne_bak, remove_other _ _ _ _ dat_ne_sha,
    chtimes_at_dat env.chtimes env.recorded gfw.UpdateTime fs newf hdat]

/-- The sidecar at the `return` after a passing check, when its `os.Remove` is not disturbed. -/
theorem verify_pass_sha_removed (lib : Lib) (env : Env) (gfw : GFWList) (fs : FS) (sc : File)
    (hread : env.readSha = none) (hsc : fs pathSiteDatSha256 = some sc)
    (hlen : 2 ≤ (bytes.Fields sc.content).length)
    (hchk : (checkSha256 env.readDat pathSiteDat ((bytes.Fields sc.content).getD 0 []) fs).1
      = true)
    (hrs : env.removeSha = none) :
    (verifyAndStamp lib env gfw fs).2.2 pathSiteDatSha256 = none := by
  rw [verify_pass lib env gfw fs sc hread hsc hlen hchk]
  simp only [hrs]
  rw [remove_other _ _ _ _ bak_ne_sha.symm, remove_same]

/-- The backup at the `return` after a passing check, when its `os.Remove` is not disturbed. -/
theorem verify_pass_bak_removed (lib : Lib) (env : Env) (gfw : GFWList) (fs : FS) (sc : File)
    (hread : env.readSha = none) (hsc : fs pathSiteDatSha256 = some sc)
    (hlen : 2 ≤ (bytes.Fields sc.content).length)
    (hchk : (checkSha256 env.readDat pathSiteDat ((bytes.Fields sc.content).getD 0 []) fs).1
      = true)
    (hrb : env.removeBak = none) :
    (verifyAndStamp lib env gfw fs).2.2 backupDat = none := by
  rw [verify_pass lib env gfw fs sc hread hsc hlen hchk]
  simp only [hrb]
  rw [remove_same]

theorem rename_other (fault : Option Error) (oldpath newpath q : String) (fs : FS)
    (h1 : q ≠ oldpath) (h2 : q ≠ newpath) : (os.Rename fault oldpath newpath fs).2 q = fs q := by
  unfold os.Rename
  cases fault <;> cases fs oldpath <;> simp [h1, h2]

/-- A resolved remote version has a non-zero time, from the cache or from the network. -/
theorem remote_ok_nonzero (lib : Lib) (c : Client) (g : GFWList)
    (hok : (GetRemoteGFWListUpdateTime lib c g).err = none) :
    (GetRemoteGFWListUpdateTime lib c g).gfwlist.UpdateTime.IsZero = false := by
  cases hz : g.UpdateTime.IsZero with
  | false => rw [remote_cached lib c g hz]; exact hz
  | true => exact (remote_success lib c g hz hok).2.1

/-- A non-zero time is handed to the file system as its Unix nanoseconds. -/
theorem set_nonzero (recorded : Time → Time) (T old : Time) (h : T.IsZero = false) :
    os.Chtimes.set recorded T old = recorded (time.Unix T.UnixNano) := by
  simp [os.Chtimes.set, h]

/-- Within the int64 range the Unix nanoseconds give the instant back. -/
theorem unix_roundtrip (T : Time) (h : T.fitsUnixNano = true) : time.Unix T.UnixNano = T := by
  simp only [Time.fitsUnixNano, decide_eq_true_eq, time.unixToInternal] at h
  cases T with
  | mk i =>
    simp only [time.Unix, Time.UnixNano, time.unixToInternal, Time.mk.injEq] at h ⊢
    omega

/-! ### The digest on the test vectors of FIPS 180-4 -/

theorem Sum256_abc : hex.EncodeToString (libSha256.Sum256 abc) = sidecarAbc.take 64 := by
  decide

/-- The empty message: `e3b0c442...b855`. -/
theorem Sum256_empty : hex.EncodeToString (libSha256.Sum256 []) =
    [101, 51, 98, 48, 99, 52, 52, 50, 57, 56, 102, 99, 49, 99, 49, 52,
     57, 97, 102, 98, 102, 52, 99, 56, 57, 57, 54, 102, 98, 57, 50, 52,
     50, 55, 97, 101, 52, 49, 101, 52, 54, 52, 57, 98, 57, 51, 52, 99,
     97, 52, 57, 53, 57, 57, 49, 98, 55, 56, 53, 50, 98, 56, 53, 53] := by
  decide

/-- The two-block message `abcdbcdecdefdefgefghfghighijhijkijkljklmklmnlmnomnopnopq`:
`248d6a61...06c1`. -/
theorem Sum256_two_blocks : hex.EncodeToString (libSha256.Sum256
    [97, 98, 99, 100, 98, 99, 100, 101, 99, 100, 101, 102, 100, 101, 102, 103,
     101, 102, 103, 104, 102, 103, 104, 105, 103, 104, 105, 106, 104, 105, 106, 107,
     105, 106, 107, 108, 106, 107, 108, 109, 107, 108, 109, 110, 108, 109, 110, 111,
     109, 110, 111, 112, 110, 111, 112, 113]) =
    [50, 52, 56, 100, 54, 97, 54, 49, 100, 50, 48, 54, 51, 56, 98, 56,
     101, 53, 99, 48, 50, 54, 57, 51, 48, 99, 51, 101, 54, 48, 51, 57,
     97, 51, 51, 99, 101, 52, 53, 57, 54, 52, 102, 102, 50, 49, 54, 55,
     102, 54, 101, 99, 101, 100, 100, 52, 49, 57, 100, 98, 48, 54, 99, 49] := by
  decide

/-- The fields of the example sidecar: the digest and the file name. -/
theorem Fields_sidecarAbc :
    bytes.Fields sidecarAbc = [sidecarAbc.take 64, [103, 101, 111, 115, 105, 116, 101, 46, 100, 97, 116]] := by
  decide

/-- White space of every kind separates: tab, U+0085, U+2005, U+3000; the three bytes of the
euro sign stay in their field. -/
theorem Fields_unicode :
    bytes.Fields [9, 97, 0xC2, 0x85, 98, 0xE2, 0x80, 0x85, 0xE2, 0x82, 0xAC, 99, 0xE3, 0x80, 0x80]
      = [[97], [98], [0xE2, 0x82, 0xAC, 99]] := by
  decide

/-! ## Properties of the update protocol -/

/-- C3 (staleness comparison): when the remote version is resolved with timestamp `R` and
`IsUpdate` returns no error, it returns `remoteTime = R`, and `update = true` exactly when the
local artifact exists with a modification time `L` such that `R ≤ L`; so `update = false`
whenever no local artifact exists, and `update = true` when `L = R`. -/
theorem IsUpdate_staleness (lib : Lib) (c : Client) (fault : Option Error) (g : GFWList)
    (fs : FS) (R : Time)
    (hres : (GetRemoteGFWListUpdateTime lib c g).err = none)
    (hR : (GetRemoteGFWListUpdateTime lib c g).gfwlist.UpdateTime = R)
    (herr : (IsUpdate lib c fault g fs).err = none) :
    (IsUpdate lib c fault g fs).remoteTime = R ∧
    ((IsUpdate lib c fault g fs).update = true ↔
      ∃ f, fs pathSiteDat = some f ∧ R.instant ≤ f.modTime.instant) ∧
    (fs pathSiteDat = none → (IsUpdate lib c fault g fs).update = false) ∧
    (∀ f, fs pathSiteDat = some f → f.modTime = R →
      (IsUpdate lib c fault g fs).update = true) := by
  revert herr
  unfold IsUpdate
  simp only [hres, hR, asset.IsGFWListExists, asset.GetGFWListModTime, files.GetFileModTime]
  cases hf : fs pathSiteDat with
  | none => simp
  | some f =>
    cases fault with
    | some e => simp
    | none =>
      by_cases hlt : f.modTime.instant < R.instant
      · have hne : f.modTime ≠ R := by
          intro h; rw [h] at hlt; exact lt_irrefl _ hlt
        simp [Time.Before, hlt, hne]
      · have hle : R.instant ≤ f.modTime.instant := not_lt.mp hlt
        simp [Time.Before, hlt, hle]

/-- C3, at an instance: the lookup over the network resolves the version of
2024-11-01T00:00:00Z and the local artifact was modified at that very instant. -/
theorem IsUpdate_staleness_witness :
    (IsUpdate exampleLib exampleClient none emptyCache
        (fun p => if p = pathSiteDat then some ⟨[1], date20241101⟩ else none)).remoteTime
      = date20241101 ∧
    (IsUpdate exampleLib exampleClient none emptyCache
        (fun p => if p = pathSiteDat then some ⟨[1], date20241101⟩ else none)).update = true :=
  have h := IsUpdate_staleness exampleLib exampleClient none emptyCache
    (fun p => if p = pathSiteDat then some ⟨[1], date20241101⟩ else none) date20241101
    (by decide) (by decide) (by decide)
  ⟨h.1, h.2.2.2 ⟨[1], date20241101⟩ (by decide) (by decide)⟩

/-- C4 (idempotent caching): if a call of `GetRemoteGFWListUpdateTime` on an empty cache
succeeds and returns `v`, it has issued exactly two requests, and every later call, whatever
network it is given, returns `v` with a nil error and issues no request; so two calls in
sequence issue two requests in total. -/
theorem cache_idempotent (lib : Lib) (c : Client) (g v : GFWList)
    (hempty : g.UpdateTime.IsZero = true)
    (hok : (GetRemoteGFWListUpdateTime lib c g).err = none)
    (hv : (GetRemoteGFWListUpdateTime lib c g).gfwlist = v) :
    (GetRemoteGFWListUpdateTime lib c g).requests.length = 2 ∧
    (∀ (cs : List Client), ∀ r ∈ callsInSequence lib cs (GetRemoteGFWListUpdateTime lib c g).g,
      r.gfwlist = v ∧ r.err = none ∧ r.requests = []) ∧
    (∀ c2 : Client,
      ((GetRemoteGFWListUpdateTime lib c g).requests ++
        (GetRemoteGFWListUpdateTime lib c2 (GetRemoteGFWListUpdateTime lib c g).g).requests).length
        = 2) := by
  obtain ⟨h1, h2, _, h4⟩ := remote_success lib c g hempty hok
  rw [hv] at h1 h2
  refine ⟨h4, ?_, ?_⟩
  · intro cs r hr
    rw [h1] at hr
    obtain ⟨a, b, d, _⟩ := calls_cached lib cs v h2 r hr
    exact ⟨a, b, d⟩
  · intro c2
    rw [h1, remote_cached lib c2 v h2]
    simpa using h4

/-- C4, at an instance: a first call over a working network, then calls over a dead one. -/
theorem cache_idempotent_witness :
    (GetRemoteGFWListUpdateTime exampleLib exampleClient emptyCache).requests.length = 2 ∧
    ∀ r ∈ callsInSequence exampleLib [deadClient, deadClient]
        (GetRemoteGFWListUpdateTime exampleLib exampleClient emptyCache).g,
      r.gfwlist = ⟨date20241101, "202411"⟩ ∧ r.err = none ∧ r.requests = [] :=
  have h := cache_idempotent exampleLib exampleClient emptyCache ⟨date20241101, "202411"⟩
    (by decide) (by decide) (by decide)
  ⟨h.1, h.2.1 [deadClient, deadClient]⟩

/-- C5 (version lookup failure and cache invariant): on an empty cache
`GetRemoteGFWListUpdateTime` returns an error when the first request fails, when the index
reply has an empty `0.name` or `0.commit.url`, when the second request fails, and when
`commit.committer.date` of the metadata reply is the zero time; every failure leaves the
package variable `g` unchanged; and after any sequence of calls from the empty cache `g` is
empty or holds a non-empty `Tag` and a non-zero `UpdateTime`. -/
theorem lookup_failure_keeps_cache (lib : Lib) (c : Client) (g : GFWList)
    (hempty : g.UpdateTime.IsZero = true) :
    (∀ e, c 0 tagsURL = .error e → (GetRemoteGFWListUpdateTime lib c g).err ≠ none) ∧
    (∀ resp, c 0 tagsURL = .ok resp →
      (lib.gjsonStr resp.data "0.name" = "" ∨ lib.gjsonStr resp.data "0.commit.url" = "") →
      (GetRemoteGFWListUpdateTime lib c g).err ≠ none) ∧
    (∀ resp e, c 0 tagsURL = .ok resp →
      c 1 (lib.gjsonStr resp.data "0.commit.url") = .error e →
      (GetRemoteGFWListUpdateTime lib c g).err ≠ none) ∧
    (∀ resp resp2, c 0 tagsURL = .ok resp →
      c 1 (lib.gjsonStr resp.data "0.commit.url") = .ok resp2 →
      (lib.gjsonTime resp2.data "commit.committer.date").IsZero = true →
      (GetRemoteGFWListUpdateTime lib c g).err ≠ none) ∧
    ((GetRemoteGFWListUpdateTime lib c g).err ≠ none →
      (GetRemoteGFWListUpdateTime lib c g).g = g) ∧
    (∀ cs : List Client, CacheInv (cacheAfter lib cs emptyCache)) := by
  refine ⟨?_, ?_, ?_, ?_, remote_error_keeps lib c g, ?_⟩
  · intro e he
    simp [GetRemoteGFWListUpdateTime, hempty, he]
  · intro resp he hor
    simp [GetRemoteGFWListUpdateTime, hempty, he, io.ReadAll, hor]
  · intro resp e he he2
    unfold GetRemoteGFWListUpdateTime
    simp only [hempty, he, io.ReadAll, he2, Bool.not_true, Bool.false_eq_true, if_false]
    split <;> simp
  · intro resp resp2 he he2 hz
    unfold GetRemoteGFWListUpdateTime
    simp only [hempty, he, io.ReadAll, he2, hz, Bool.not_true, Bool.false_eq_true, if_false,
      if_true]
    split <;> simp
  · intro cs
    exact cacheAfter_inv lib cs emptyCache (Or.inl rfl)

/-- C5, at an instance: the network is down and the cache is empty. -/
theorem lookup_failure_keeps_cache_witness :
    (GetRemoteGFWListUpdateTime exampleLib deadClient emptyCache).err ≠ none ∧
    (GetRemoteGFWListUpdateTime exampleLib deadClient emptyCache).g = emptyCache :=
  have h := lookup_failure_keeps_cache exampleLib deadClient emptyCache (by decide)
  ⟨h.1 (Error.os "network is unreachable") rfl,
   h.2.2.2.2.1 (h.1 (Error.os "network is unreachable") rfl)⟩

/-- C9 (checksum verifier): `checkSha256(p, s)` returns true exactly when the file at `p` can be
read and the hexadecimal encoding of the SHA-256 digest of its content is `s`, byte for byte;
the encoding uses the digits `0-9a-f` only, so an `s` with any other byte (an upper-case digit,
for one) gives false; a missing file gives false; and the file system is left as it was. -/
theorem checkSha256_correct (fault : Option Error) (p : String) (s : Bytes) (fs : FS) :
    ((checkSha256 fault p s fs).1 = true ↔
      ∃ b, (os.ReadFile fault p fs).1 = .ok b ∧
        hex.EncodeToString (libSha256.Sum256 b) = s) ∧
    ((∃ x ∈ s, x ∉ hex.hextable) → (checkSha256 fault p s fs).1 = false) ∧
    (fs p = none → (checkSha256 fault p s fs).1 = false) ∧
    (checkSha256 fault p s fs).2 = fs := by
  have key : ((checkSha256 fault p s fs).1 = true ↔
      ∃ b, (os.ReadFile fault p fs).1 = .ok b ∧
        hex.EncodeToString (libSha256.Sum256 b) = s) := by
    unfold checkSha256 os.ReadFile
    cases fault <;> cases fs p <;> simp
  refine ⟨key, ?_, ?_, ?_⟩
  · rintro ⟨x, hx, hnot⟩
    cases hc : (checkSha256 fault p s fs).1 with
    | false => rfl
    | true =>
      obtain ⟨b, _, hb⟩ := key.mp hc
      rw [← hb] at hx
      exact absurd (EncodeToString_lowercase _ x hx) hnot
  · intro hnone
    unfold checkSha256 os.ReadFile
    cases fault <;> simp [hnone]
  · unfold checkSha256 os.ReadFile
    cases fault <;> cases fs p <;> rfl

/-- C2 (atomicity under integrity failure): the artifact exists, the remote version is
resolved, the backup rename and both downloads succeed, the sidecar is read and has at least
two fields, and the hexadecimal SHA-256 digest of the downloaded artifact differs from the
first field. Then `UpdateLocalGFWList` returns `newError(DamagedFile)` and, the restoring
rename succeeding, the artifact path holds the file it held before the call and the backup
path holds nothing. -/
theorem integrity_failure_restores (lib : Lib) (env : Env) (g : GFWList) (fs : FS)
    (old newf : File) (resp : Response) (tw : Time)
    (hold : fs pathSiteDat = some old)
    (hres : (GetRemoteGFWListUpdateTime lib env.client g).err = none)
    (hren : env.renameBackup = none)
    (hD : env.Down (UpdateLocalGFWList.u (GetRemoteGFWListUpdateTime lib env.client g).gfwlist)
      = .ok newf)
    (hG : env.Get (UpdateLocalGFWList.u2 (GetRemoteGFWListUpdateTime lib env.client g).gfwlist)
      = .ok resp)
    (hrd : resp.readErr = none)
    (hW : env.writeSha = .ok tw)
    (hread : env.readSha = none)
    (hlen : 2 ≤ (bytes.Fields resp.data).length)
    (hdig : hex.EncodeToString (libSha256.Sum256 newf.content) ≠
      (bytes.Fields resp.data).getD 0 [])
    (hrestore : env.restore = none) :
    (UpdateLocalGFWList lib env g fs).err = some (Error.newErrorOf DamagedFile) ∧
    (UpdateLocalGFWList lib env g fs).fs pathSiteDat = some old ∧
    (UpdateLocalGFWList lib env g fs).fs backupDat = none := by
  rw [run_with_backup lib env g fs old newf resp tw hres hold hren hD hG hrd hW]
  have hchk : (checkSha256 env.readDat pathSiteDat ((bytes.Fields resp.data).getD 0 [])
      ((((fs.set pathSiteDat none).set backupDat (some old)).set pathSiteDat
        (some newf)).set pathSiteDatSha256 (some ⟨resp.data, tw⟩))).1 = false := by
    cases hc : (checkSha256 env.readDat pathSiteDat ((bytes.Fields resp.data).getD 0 [])
      ((((fs.set pathSiteDat none).set backupDat (some old)).set pathSiteDat
        (some newf)).set pathSiteDatSha256 (some ⟨resp.data, tw⟩))).1 with
    | false => rfl
    | true =>
      obtain ⟨f, _, hf, hfd⟩ := (checkSha256_true_iff _ _ _ _).mp hc
      simp only [set_sha_at_dat, FS.set_same, Option.some.injEq] at hf
      rw [← hf] at hfd
      exact absurd hfd hdig
  rw [verify_damaged lib env _ _ ⟨resp.data, tw⟩ hread (by simp) hlen hchk]
  simp [deferred, os.Rename, hrestore]

/-- C2, at an instance: the artifact `[1, 2, 3]` is there, `abd` is downloaded with the sidecar
of `abc`. -/
theorem integrity_failure_restores_witness :
    (UpdateLocalGFWList exampleLib damagedEnv emptyCache oldFS).err
      = some (Error.newErrorOf DamagedFile) ∧
    (UpdateLocalGFWList exampleLib damagedEnv emptyCache oldFS).fs pathSiteDat
      = some ⟨[1, 2, 3], date20241001⟩ ∧
    (UpdateLocalGFWList exampleLib damagedEnv emptyCache oldFS).fs backupDat = none :=
  integrity_failure_restores exampleLib damagedEnv emptyCache oldFS ⟨[1, 2, 3], date20241001⟩
    ⟨[97, 98, 100], wallClock⟩ ⟨sidecarAbc, none⟩ wallClockSha
    (by decide) (by decide) (by decide) rfl rfl rfl rfl
    (by decide) (by decide) (by decide) (by decide)

/-- C8 (sidecar format): after the backup step and both downloads have succeeded,
`UpdateLocalGFWList` returns `FailCheckSha` when the sidecar cannot be read, when it has fewer
than two fields, and so when it holds only a hexadecimal digest; when it has the fields
`f0, f1, ...` the run goes on (its error is then the one of `files.GetFileModTime`) exactly if
the artifact is read and its hexadecimal SHA-256 digest is `f0`, and otherwise it returns
`newError(DamagedFile)`, which is not `FailCheckSha`. -/
theorem sidecar_format (lib : Lib) (env : Env) (g : GFWList) (fs : FS) (newf : File)
    (resp : Response) (tw : Time)
    (hres : (GetRemoteGFWListUpdateTime lib env.client g).err = none)
    (hren : (fs pathSiteDat).isSome = true → env.renameBackup = none)
    (hD : env.Down (UpdateLocalGFWList.u (GetRemoteGFWListUpdateTime lib env.client g).gfwlist)
      = .ok newf)
    (hG : env.Get (UpdateLocalGFWList.u2 (GetRemoteGFWListUpdateTime lib env.client g).gfwlist)
      = .ok resp)
    (hrd : resp.readErr = none)
    (hW : env.writeSha = .ok tw) :
    (env.readSha ≠ none → (UpdateLocalGFWList lib env g fs).err = some FailCheckSha) ∧
    (env.readSha = none → (bytes.Fields resp.data).length < 2 →
      (UpdateLocalGFWList lib env g fs).err = some FailCheckSha) ∧
    (env.readSha = none → ∀ d, resp.data = hex.EncodeToString d →
      (UpdateLocalGFWList lib env g fs).err = some FailCheckSha) ∧
    (env.readSha = none → ∀ f0 f1 rest, bytes.Fields resp.data = f0 :: f1 :: rest →
      ((env.readDat = none ∧ hex.EncodeToString (libSha256.Sum256 newf.content) = f0) →
        (UpdateLocalGFWList lib env g fs).err = env.getModTime) ∧
      (¬ (env.readDat = none ∧ hex.EncodeToString (libSha256.Sum256 newf.content) = f0) →
        (UpdateLocalGFWList lib env g fs).err = some (Error.newErrorOf DamagedFile))) ∧
    Error.newErrorOf DamagedFile ≠ FailCheckSha := by
  obtain ⟨fs2, hsc, hdat, _, hrun⟩ := run_to_defer lib env g fs newf resp tw hres hren hD hG hrd hW
  rw [hrun]
  have hshort : env.readSha = none → (bytes.Fields resp.data).length < 2 →
      (verifyAndStamp lib env (GetRemoteGFWListUpdateTime lib env.client g).gfwlist fs2).2.1
        = some FailCheckSha := by
    intro hread hlen
    rw [verify_short lib env _ fs2 ⟨resp.data, tw⟩ hread hsc hlen]
  refine ⟨?_, hshort, ?_, ?_, by decide⟩
  · intro hne
    cases hread : env.readSha with
    | none => exact absurd hread hne
    | some e => simp only []; rw [verify_unreadable lib env _ fs2 e hread]
  · intro hread d hd
    exact hshort hread (by rw [hd]; exact Fields_digest_only d)
  · intro hread f0 f1 rest hf
    have hlen : 2 ≤ (bytes.Fields (File.mk resp.data tw).content).length := by
      simp [hf]
    have hiff := checkSha256_true_iff env.readDat pathSiteDat ((bytes.Fields resp.data).getD 0 [])
      fs2
    simp only [hf, List.getD_cons_zero, hdat, Option.some.injEq] at hiff
    constructor
    · rintro ⟨h1, h2⟩
      have hchk : (checkSha256 env.readDat pathSiteDat
          ((bytes.Fields (File.mk resp.data tw).content).getD 0 []) fs2).1 = true := by
        simp only [hf, List.getD_cons_zero]
        exact hiff.mpr ⟨newf, h1, rfl, h2⟩
      exact (verify_pass_err lib env _ fs2 ⟨resp.data, tw⟩ newf hread hsc hdat hlen hchk).1
    · intro hnot
      have hchk : (checkSha256 env.readDat pathSiteDat
          ((bytes.Fields (File.mk resp.data tw).content).getD 0 []) fs2).1 = false := by
        simp only [hf, List.getD_cons_zero]
        cases hc : (checkSha256 env.readDat pathSiteDat f0 fs2).1 with
        | false => rfl
        | true =>
          obtain ⟨f, h1, h2, h3⟩ := hiff.mp hc
          exact absurd ⟨h1, by rw [h2]; exact h3⟩ hnot
      simp only []
      rw [verify_damaged lib env _ fs2 ⟨resp.data, tw⟩ hread hsc hlen hchk]

/-- C8, at an instance: the sidecar received holds only the 64 digits of the digest. -/
theorem sidecar_format_witness :
    (UpdateLocalGFWList exampleLib digestOnlyEnv emptyCache oldFS).err = some FailCheckSha :=
  (sidecar_format exampleLib digestOnlyEnv emptyCache oldFS ⟨abc, wallClock⟩
    ⟨sidecarAbc.take 64, none⟩ wallClockSha (by decide) (fun _ => rfl) rfl rfl rfl rfl).2.1
    rfl (by decide)

/-- C6 as stated fails, in three runs that return a nil error. First run: the remote version
is of 2024-11-01T00:00:00Z and `os.Chtimes` fails (its error is discarded): the artifact keeps
the wall clock 2024-11-04T12:00:00Z of the download and the label is `2024-11-04`. Second run:
the remote version is of 2500-01-01T00:00:00Z and every call succeeds: `os.Chtimes` hands over
`UnixNano()`, which has wrapped around in int64, and the artifact and the label are of
1915-06-14. Third run: the remote version is of 2024-11-01T00:00:01Z, every call succeeds and
the file system stores times in steps of two seconds: the artifact is of
2024-11-01T00:00:00Z. -/
theorem success_stamp_counterexample :
    ((GetRemoteGFWListUpdateTime exampleLib chtimesFailEnv.client emptyCache).err = none ∧
     (GetRemoteGFWListUpdateTime exampleLib chtimesFailEnv.client emptyCache).gfwlist.UpdateTime
       = date20241101 ∧
     (UpdateLocalGFWList exampleLib chtimesFailEnv emptyCache oldFS).err = none ∧
     (UpdateLocalGFWList exampleLib chtimesFailEnv emptyCache oldFS).fs pathSiteDat
       = some ⟨abc, wallClock⟩ ∧
     wallClock ≠ date20241101 ∧
     (UpdateLocalGFWList exampleLib chtimesFailEnv emptyCache oldFS).localGFWListVersionAfterUpdate
       = "2024-11-04" ∧
     exampleLib.Format date20241101 = "2024-11-01") ∧
    ((GetRemoteGFWListUpdateTime farLib goodEnv.client emptyCache).err = none ∧
     (GetRemoteGFWListUpdateTime farLib goodEnv.client emptyCache).gfwlist.UpdateTime
       = date25000101 ∧
     goodEnv.chtimes = none ∧
     (UpdateLocalGFWList farLib goodEnv emptyCache oldFS).err = none ∧
     (UpdateLocalGFWList farLib goodEnv emptyCache oldFS).fs pathSiteDat
       = some ⟨abc, date25000101Wrapped⟩ ∧
     date25000101Wrapped ≠ date25000101 ∧
     (UpdateLocalGFWList farLib goodEnv emptyCache oldFS).localGFWListVersionAfterUpdate
       = "1915-06-14" ∧
     farLib.Format date25000101 = "2500-01-01") ∧
    ((GetRemoteGFWListUpdateTime oddLib coarseEnv.client emptyCache).err = none ∧
     (GetRemoteGFWListUpdateTime oddLib coarseEnv.client emptyCache).gfwlist.UpdateTime
       = ⟨63866016001000000000⟩ ∧
     coarseEnv.chtimes = none ∧
     (UpdateLocalGFWList oddLib coarseEnv emptyCache oldFS).err = none ∧
     (UpdateLocalGFWList oddLib coarseEnv emptyCache oldFS).fs pathSiteDat
       = some ⟨abc, ⟨63866016000000000000⟩⟩ ∧
     (⟨63866016000000000000⟩ : Time) ≠ ⟨63866016001000000000⟩) := by
  decide

/-- C6, amended: whenever `UpdateLocalGFWList` returns a nil error for a remote version with
timestamp `T`, the artifact exists after the call and the returned label is its modification
time formatted as a date; if the call of `os.Chtimes` succeeded, that modification time is
what the file system stores for `T.UnixNano()`, the nanoseconds of `T` since the Unix epoch
wrapped into int64; and if moreover `T` is within the int64 range of Unix nanoseconds
(1677-09-21 to 2262-04-11) and the file system stores `T` exactly, the modification time is
`T` and the label is `T` formatted as a date. -/
theorem success_stamp (lib : Lib) (env : Env) (g : GFWList) (fs : FS) (T : Time)
    (hres : (GetRemoteGFWListUpdateTime lib env.client g).err = none)
    (hT : (GetRemoteGFWListUpdateTime lib env.client g).gfwlist.UpdateTime = T)
    (hok : (UpdateLocalGFWList lib env g fs).err = none) :
    ∃ f, (UpdateLocalGFWList lib env g fs).fs pathSiteDat = some f ∧
      (UpdateLocalGFWList lib env g fs).localGFWListVersionAfterUpdate = lib.Format f.modTime ∧
      (env.chtimes = none → f.modTime = env.recorded (time.Unix T.UnixNano)) ∧
      (env.chtimes = none → T.fitsUnixNano = true → env.recorded T = T →
        f.modTime = T ∧
        (UpdateLocalGFWList lib env g fs).localGFWListVersionAfterUpdate = lib.Format T) := by
  obtain ⟨newf, resp, tw, hren, hD, hG, hrd, hW⟩ := run_success_inv lib env g fs hres hok
  obtain ⟨fs2, hsc, hdat, _, hrun⟩ := run_to_defer lib env g fs newf resp tw hres hren hD hG hrd hW
  have hnz : T.IsZero = false := by rw [← hT]; exact remote_ok_nonzero lib env.client g hres
  rw [hrun] at hok ⊢
  simp only at hok
  obtain ⟨hread, hlen, hchk⟩ := verify_success_inv lib env _ fs2 ⟨resp.data, tw⟩ hsc hok
  obtain ⟨herr, hlabel⟩ := verify_pass_err lib env (GetRemoteGFWListUpdateTime lib env.client
    g).gfwlist fs2 ⟨resp.data, tw⟩ newf hread hsc hdat hlen hchk
  have hmt : env.getModTime = none := by rw [← herr]; exact hok
  rw [hmt] at hlabel
  simp only at hlabel
  refine ⟨⟨newf.content, if env.chtimes = none
    then os.Chtimes.set env.recorded T newf.modTime else newf.modTime⟩, ?_, ?_, ?_, ?_⟩
  · simp only [deferred, hok, Option.isSome_none, Bool.false_eq_true, if_false]
    rw [verify_pass_dat lib env _ fs2 ⟨resp.data, tw⟩ newf hread hsc hdat hlen hchk, hT]
  · simp only [hlabel, hT]
  · intro hch
    simp only [hch, if_true, set_nonzero env.recorded T newf.modTime hnz]
  · intro hch hfit hrec
    simp only [hlabel, hT, hch, if_true, set_nonzero env.recorded T newf.modTime hnz,
      unix_roundtrip T hfit, hrec, and_self]

/-- C6 amended, at an instance: every call succeeds, the remote version is of
2024-11-01T00:00:00Z, and the artifact and the label are of that instant. -/
theorem success_stamp_witness :
    ∃ f, (UpdateLocalGFWList exampleLib goodEnv emptyCache oldFS).fs pathSiteDat = some f ∧
      f.modTime = date20241101 ∧
      (UpdateLocalGFWList exampleLib goodEnv emptyCache oldFS).localGFWListVersionAfterUpdate
        = "2024-11-01" :=
  have h := success_stamp exampleLib goodEnv emptyCache oldFS date20241101
    (by decide) (by decide) (by decide)
  Exists.elim h (fun f hf =>
    ⟨f, hf.1, (hf.2.2.2 rfl (by decide) rfl).1,
      (hf.2.2.2 rfl (by decide) rfl).2.trans (by decide)⟩)

/-- C10 as stated fails. First run: no prior artifact, `abc` is downloaded and verified,
`files.GetFileModTime` fails, and so does the cleanup's `os.Remove(pathSiteDat)`, whose error
is discarded: the newly verified artifact is not deleted. Second run: the artifact `[1, 2, 3]`
is backed up, `files.GetFileModTime` fails, and so does `os.Remove(backupDat)`, whose error is
discarded: the backup is still there when the deferred cleanup runs, the restoring rename finds
it, and the prior content is put back. -/
theorem modtime_failure_counterexample :
    emptyFS pathSiteDat = none ∧
    (UpdateLocalGFWList exampleLib removeDatFailEnv emptyCache emptyFS).err
      = some (Error.os "input/output error") ∧
    (UpdateLocalGFWList exampleLib removeDatFailEnv emptyCache emptyFS).fs pathSiteDat
      = some ⟨abc, date20241101⟩ ∧
    oldFS pathSiteDat = some ⟨[1, 2, 3], date20241001⟩ ∧
    (UpdateLocalGFWList exampleLib removeFailEnv emptyCache oldFS).err
      = some (Error.os "input/output error") ∧
    (UpdateLocalGFWList exampleLib removeFailEnv emptyCache oldFS).fs pathSiteDat
      = some ⟨[1, 2, 3], date20241001⟩ := by
  decide

/-- C10, amended: the backup step, both downloads and the checksum verification succeed and
`files.GetFileModTime` on the artifact fails with `e`. Then `UpdateLocalGFWList` returns `e`
with an empty label; the sidecar is gone if its `os.Remove` succeeded and the backup path is
empty if `os.Remove(backupDat)` succeeded; the deferred cleanup runs on the error: when there
was no prior artifact and the cleanup's `os.Remove` succeeds, the artifact path is empty; when
there was one and `os.Remove(backupDat)` succeeded, the restoring rename finds no backup and
the artifact path keeps the downloaded file, so the prior content is not put back. -/
theorem modtime_failure_after_verify (lib : Lib) (env : Env) (g : GFWList) (fs : FS)
    (newf : File) (resp : Response) (tw : Time) (e : Error)
    (hres : (GetRemoteGFWListUpdateTime lib env.client g).err = none)
    (hren : (fs pathSiteDat).isSome = true → env.renameBackup = none)
    (hD : env.Down (UpdateLocalGFWList.u (GetRemoteGFWListUpdateTime lib env.client g).gfwlist)
      = .ok newf)
    (hG : env.Get (UpdateLocalGFWList.u2 (GetRemoteGFWListUpdateTime lib env.client g).gfwlist)
      = .ok resp)
    (hrd : resp.readErr = none)
    (hW : env.writeSha = .ok tw)
    (hread : env.readSha = none)
    (hlen : 2 ≤ (bytes.Fields resp.data).length)
    (hrdat : env.readDat = none)
    (hdig : hex.EncodeToString (libSha256.Sum256 newf.content) =
      (bytes.Fields resp.data).getD 0 [])
    (hmt : env.getModTime = some e) :
    (UpdateLocalGFWList lib env g fs).err = some e ∧
    (UpdateLocalGFWList lib env g fs).localGFWListVersionAfterUpdate = "" ∧
    (env.removeSha = none → (UpdateLocalGFWList lib env g fs).fs pathSiteDatSha256 = none) ∧
    (env.removeBak = none → (UpdateLocalGFWList lib env g fs).fs backupDat = none) ∧
    (fs pathSiteDat = none → env.removeDat = none →
      (UpdateLocalGFWList lib env g fs).fs pathSiteDat = none) ∧
    (∀ old, fs pathSiteDat = some old → env.removeBak = none →
      (UpdateLocalGFWList lib env g fs).fs pathSiteDat =
        some ⟨newf.content,
          if env.chtimes = none then os.Chtimes.set env.recorded
            (GetRemoteGFWListUpdateTime lib env.client g).gfwlist.UpdateTime newf.modTime
          else newf.modTime⟩) := by
  obtain ⟨fs2, hsc, hdat, _, hrun⟩ := run_to_defer lib env g fs newf resp tw hres hren hD hG hrd hW
  rw [hrun]
  have hchk : (checkSha256 env.readDat pathSiteDat
      ((bytes.Fields (File.mk resp.data tw).content).getD 0 []) fs2).1 = true :=
    (checkSha256_true_iff _ _ _ _).mpr ⟨newf, hrdat, hdat, hdig⟩
  obtain ⟨herr, hlabel⟩ := verify_pass_err lib env (GetRemoteGFWListUpdateTime lib env.client
    g).gfwlist fs2 ⟨resp.data, tw⟩ newf hread hsc hdat hlen hchk
  have hsha := verify_pass_sha_removed lib env (GetRemoteGFWListUpdateTime lib env.client
    g).gfwlist fs2 ⟨resp.data, tw⟩ hread hsc hlen hchk
  have hbak := verify_pass_bak_removed lib env (GetRemoteGFWListUpdateTime lib env.client
    g).gfwlist fs2 ⟨resp.data, tw⟩ hread hsc hlen hchk
  have hnew := verify_pass_dat lib env (GetRemoteGFWListUpdateTime lib env.client
    g).gfwlist fs2 ⟨resp.data, tw⟩ newf hread hsc hdat hlen hchk
  rw [hmt] at herr hlabel
  simp only at hlabel
  simp only [herr, hlabel, deferred, Option.isSome_some, if_true, true_and]
  cases hold : fs pathSiteDat with
  | none =>
    simp only [Option.isSome_none, Bool.false_eq_true, if_false]
    refine ⟨?_, ?_, ?_, ?_⟩
    · intro hrs; rw [remove_other _ _ _ _ dat_ne_sha.symm]; exact hsha hrs
    · intro hrb; rw [remove_other _ _ _ _ dat_ne_bak.symm]; exact hbak hrb
    · intro _ hrm; rw [hrm]; exact remove_same _ _
    · intro old h; exact absurd h (by simp)
  | some old0 =>
    simp only [Option.isSome_some, if_true]
    refine ⟨?_, ?_, ?_, ?_⟩
    · intro hrs; rw [rename_other _ _ _ _ _ bak_ne_sha.symm dat_ne_sha.symm]; exact hsha hrs
    · intro hrb; rw [rename_missing _ _ _ _ (hbak hrb)]; exact hbak hrb
    · intro h; exact absurd h (by simp)
    · intro old _ hrb; rw [rename_missing _ _ _ _ (hbak hrb)]; exact hnew

/-- C10 amended, at an instance: the artifact `[1, 2, 3]` is there, `abc` is downloaded and
verified, then the modification time cannot be read: the artifact path keeps `abc`. -/
theorem modtime_failure_after_verify_witness :
    (UpdateLocalGFWList exampleLib modTimeFailEnv emptyCache oldFS).err
      = some (Error.os "input/output error") ∧
    (UpdateLocalGFWList exampleLib modTimeFailEnv emptyCache oldFS).fs backupDat = none ∧
    (UpdateLocalGFWList exampleLib modTimeFailEnv emptyCache oldFS).fs pathSiteDat
      = some ⟨abc, date20241101⟩ :=
  have h := modtime_failure_after_verify exampleLib modTimeFailEnv emptyCache oldFS
    ⟨abc, wallClock⟩ ⟨sidecarAbc, none⟩ wallClockSha (Error.os "input/output error")
    (by decide) (fun _ => rfl) rfl rfl rfl rfl rfl (by decide) rfl (by decide) rfl
  ⟨h.1, h.2.2.2.1 rfl, (h.2.2.2.2.2 ⟨[1, 2, 3], date20241001⟩ (by decide) rfl).trans
    (by decide)⟩

/-- C9, at an instance: the file holds `abc` and the expected string is the digest
`ba7816bf...15ad`. -/
theorem checkSha256_correct_witness :
    (checkSha256 none pathSiteDat (sidecarAbc.take 64)
      (fun p => if p = pathSiteDat then some ⟨abc, ⟨0⟩⟩ else none)).1 = true :=
  (checkSha256_correct none pathSiteDat (sidecarAbc.take 64)
    (fun p => if p = pathSiteDat then some ⟨abc, ⟨0⟩⟩ else none)).1.mpr ⟨abc, rfl, by decide⟩

/-- C1 (atomicity under download failure) does not hold of the code: the artifact `[1, 2, 3]`
exists, the version is resolved and the backup rename succeeds. When `gopeed.Down` fails the
function returns before the `defer` statement is reached: the artifact path is left empty and
the backup stays. When `http.Get` of the sidecar fails it returns likewise: the artifact path
holds the unverified download `abc` and the backup stays. -/
theorem download_failure_keeps_backup :
    (UpdateLocalGFWList exampleLib downFailEnv emptyCache oldFS).err
      = some (Error.os "connection reset by peer") ∧
    (UpdateLocalGFWList exampleLib downFailEnv emptyCache oldFS).fs pathSiteDat = none ∧
    (UpdateLocalGFWList exampleLib downFailEnv emptyCache oldFS).fs backupDat
      = some ⟨[1, 2, 3], date20241001⟩ ∧
    (UpdateLocalGFWList exampleLib sidecarFailEnv emptyCache oldFS).err
      = some (Error.os "connection reset by peer") ∧
    (UpdateLocalGFWList exampleLib sidecarFailEnv emptyCache oldFS).fs pathSiteDat
      = some ⟨abc, wallClock⟩ ∧
    (UpdateLocalGFWList exampleLib sidecarFailEnv emptyCache oldFS).fs backupDat
      = some ⟨[1, 2, 3], date20241001⟩ := by
  decide

/-- C7 (failure cleanup when no prior artifact existed) does not hold of the code: the asset
directory is empty, the artifact `abc` is downloaded, then `http.Get` of the sidecar fails;
the function returns before the `defer` statement is reached and the artifact path holds the
unverified `abc`. -/
theorem sidecar_failure_keeps_download :
    emptyFS pathSiteDat = none ∧
    (UpdateLocalGFWList exampleLib sidecarFailEnv emptyCache emptyFS).err
      = some (Error.os "connection reset by peer") ∧
    (UpdateLocalGFWList exampleLib sidecarFailEnv emptyCache emptyFS).fs pathSiteDat
      = some ⟨abc, wallClock⟩ := by
  decide


end gfwlist
